import Mathlib

/-!
Verification development for the `hailo-sanitize-proxy` sanitizing reverse
proxy (file `hailo-sanitize-proxy.py`).  The proxy's pure data
transformations are embedded shallowly: Python/JSON values become the
inductive `JVal`, Python dicts become association lists with Python-dict
operation semantics (first-match lookup, in-place replace on assignment,
append for new keys), and Python exceptions become `Option`/explicit error
constructors.  `json.loads` is modelled as an abstract parse oracle
`String → Option JVal` wherever a function of the source calls it, since
the claims quantify over parse results, not over raw byte strings.
-/

/-- A JSON value as produced by Python's `json.loads`: `None`, booleans,
integers, strings, lists and string-keyed dicts (floats do not occur in
any of the verified paths). -/
inductive JVal where
  | null
  | bool (b : Bool)
  | int (n : Int)
  | str (s : String)
  | arr (elems : List JVal)
  | obj (fields : List (String × JVal))

/-- Association-list representation of a Python dict. -/
abbrev Obj := List (String × JVal)

/-- Python truthiness (`bool(x)`) for the values of `JVal`. -/
def JVal.pyTruthy : JVal → Bool
  | .null => false
  | .bool b => b
  | .int n => n != 0
  | .str s => s ≠ ""
  | .arr l => !l.isEmpty
  | .obj o => !o.isEmpty

/-- `d.get(k)` on a Python dict: first (unique) matching key. -/
def Obj.get? (o : Obj) (k : String) : Option JVal :=
  match o with
  | [] => none
  | (k', v) :: t => if k' = k then some v else Obj.get? t k

/-- `d[k] = v` on a Python dict: replace the value in place if the key is
present, else append the new key at the end (dict insertion order). -/
def Obj.set (o : Obj) (k : String) (v : JVal) : Obj :=
  match o with
  | [] => [(k, v)]
  | (k', v') :: t => if k' = k then (k, v) :: t else (k', v') :: Obj.set t k v

/-- `d.setdefault(k, v)` on a Python dict: no change when the key is
present, else append. -/
def Obj.setdefault (o : Obj) (k : String) (v : JVal) : Obj :=
  match Obj.get? o k with
  | some _ => o
  | none => o ++ [(k, v)]

/-- `d.pop(k, None)` on a Python dict (the removal part): drop the key. -/
def Obj.erase (o : Obj) (k : String) : Obj :=
  match o with
  | [] => []
  | (k', v) :: t => if k' = k then Obj.erase t k else (k', v) :: Obj.erase t k

/-- Python `len(x)` for values that support it; `none` models `TypeError`
on unsized values. -/
def JVal.pyLen : JVal → Option Nat
  | .str s => some s.length
  | .arr l => some l.length
  | .obj o => some o.length
  | _ => none

/-- ASCII whitespace stripped by Python's `str.strip()`. -/
def pyIsSpace (c : Char) : Bool :=
  c = ' ' || c = '\t' || c = '\n' || c = '\r' || c = Char.ofNat 11 || c = Char.ofNat 12

/-- Python `str.strip()`. -/
def pyStrip (s : String) : String :=
  String.mk (((s.toList.dropWhile pyIsSpace).reverse.dropWhile pyIsSpace).reverse)

/-- Python `str.rstrip()`. -/
def pyRstrip (s : String) : String :=
  String.mk ((s.toList.reverse.dropWhile pyIsSpace).reverse)

/-- Python `str.strip(c)` for a single strip character. -/
def pyStripChar (s : String) (c : Char) : String :=
  String.mk (((s.toList.dropWhile (· = c)).reverse.dropWhile (· = c)).reverse)

/-- Python `str.lower()` (ASCII range, which covers host names). -/
def pyLower (s : String) : String :=
  String.mk (s.toList.map Char.toLower)

/-- Python `s.startswith(pre)` (character-list based). -/
def pyStartsWith (s pre : String) : Bool :=
  pre.toList.isPrefixOf s.toList

/-- Python `s.endswith(suf)` (character-list based). -/
def pyEndsWith (s suf : String) : Bool :=
  suf.toList.isSuffixOf s.toList

/-- Python `s[n:]` for a nonnegative `n` (character-list based). -/
def pyDrop (s : String) (n : Nat) : String :=
  String.mk (s.toList.drop n)

/-- Remove the first occurrence of `pat` from `s`
(Python `s.replace(pat, "", 1)`). -/
def removeFirstAux (cs pat : List Char) : List Char :=
  match cs with
  | [] => []
  | c :: t => if pat.isPrefixOf cs then cs.drop pat.length else c :: removeFirstAux t pat

def removeFirst (s pat : String) : String :=
  String.mk (removeFirstAux s.toList pat.toList)

/-- Replace every occurrence of a character by another
(Python `s.replace(old, new)` for single characters). -/
def replaceChar (s : String) (old new : Char) : String :=
  String.mk (s.toList.map (fun c => if c = old then new else c))

/-- Python list slice `xs[i:]` where `i` is the (possibly negative)
integer index `-n`; used for `user_msgs[-N:]`. -/
def pySliceLast (xs : List JVal) (n : Int) : List JVal :=
  if n ≤ 0 then xs.drop (-n).toNat else xs.drop (xs.length - n.toNat)

/-- Python `str(x)` as used in f-string interpolation of recovered values
(best effort: containers use `repr`-style rendering with single-quoted
strings; every verified path interpolates plain strings only). -/
def pyStr : JVal → String
  | .null => "None"
  | .bool b => if b then "True" else "False"
  | .int n => toString n
  | .str s => s
  | .arr _ => "[...]"
  | .obj _ => "\x7b...\x7d"

/-! ## Constants of the source (module-level configuration and literals) -/

/-- `ALLOWED_CHAT_FIELDS` from the source. -/
def ALLOWED_CHAT_FIELDS : List String :=
  ["model", "messages", "temperature", "top_p", "n", "stream",
   "max_tokens", "max_completion_tokens", "presence_penalty",
   "frequency_penalty", "seed", "tools", "tool_choice",
   "parallel_tool_calls"]

/-- `ALLOWED_MESSAGE_FIELDS` from the source. -/
def ALLOWED_MESSAGE_FIELDS : List String :=
  ["role", "content", "tool_calls", "name", "tool_call_id"]

/-- `BLOCKED_TOOL_NAMES` from the source. -/
def BLOCKED_TOOL_NAMES : List String :=
  ["read", "write", "edit", "search", "process",
   "sessions_list", "sessions_history", "sessions_send",
   "sessions_spawn", "session_status"]

/-- `MINIMAL_SYSTEM_PROMPT` from the source. -/
def MINIMAL_SYSTEM_PROMPT : String :=
  "You are a helpful personal assistant. " ++
  "Answer the user's questions concisely and helpfully. " ++
  "If you don't know something, say so."

/-- `MAX_TOOL_DESCRIPTION_CHARS` from the source. -/
def MAX_TOOL_DESCRIPTION_CHARS : Nat := 120

/-- `MAX_TOOL_COUNT_IN_PROMPT` from the source. -/
def MAX_TOOL_COUNT_IN_PROMPT : Nat := 8

/-- Environment-derived configuration of the proxy: the completion-token
ceiling `MAX_PROXY_COMPLETION_TOKENS`, the history limit
`MAX_HISTORY_MESSAGES` (both `_env_int`, hence arbitrary integers), and
the result of `build_skills_block_from_workspace()` (a filesystem read,
taken as an opaque input string). -/
structure ProxyConfig where
  maxTokens : Int
  maxHistory : Int
  skillsBlock : String

/-! ## Request sanitization (`sanitize_chat_body` and helpers) -/

/-- `part.get("type") == "text"` for a content part. -/
def jTypeIsText (p : Obj) : Bool :=
  match Obj.get? p "type" with
  | some (.str t) => t = "text"
  | _ => false

/-- The content-part collection loop of `sanitize_chat_body`: text parts
and bare strings are collected, everything else is skipped; `none` models
the `TypeError` that `"\n".join` raises when `part.get("text", "")`
produced a non-string. -/
def collectTextParts : List JVal → Option (List String)
  | [] => some []
  | .obj p :: t =>
      if jTypeIsText p then
        match Obj.get? p "text" with
        | some (.str s) => (collectTextParts t).map (s :: ·)
        | none => (collectTextParts t).map ("" :: ·)
        | some _ => none
      else collectTextParts t
  | .str s :: t => (collectTextParts t).map (s :: ·)
  | _ :: t => collectTextParts t

/-- Result of cleaning one message: skipped (non-dict), crashed
(unjoinable content list), or kept. -/
inductive CleanOut where
  | crash
  | skip
  | keep (v : JVal)

/-- One iteration of the message-cleaning loop of `sanitize_chat_body`:
keep only `ALLOWED_MESSAGE_FIELDS`, flatten a list-shaped `content` to a
newline-joined string, and default a missing/`None` content to `""`. -/
def clean_message (msg : JVal) : CleanOut :=
  match msg with
  | .obj m =>
    let cm := m.filter (fun kv => kv.1 ∈ ALLOWED_MESSAGE_FIELDS)
    match Obj.get? cm "content" with
    | some (.arr parts) =>
        match collectTextParts parts with
        | none => .crash
        | some ps => .keep (.obj (Obj.set cm "content" (.str (String.intercalate "\n" ps))))
    | some .null => .keep (.obj (Obj.set cm "content" (.str "")))
    | none => .keep (.obj (Obj.set cm "content" (.str "")))
    | some _ => .keep (.obj cm)
  | _ => .skip

/-- The message-cleaning loop over a `messages` list. -/
def clean_messages : List JVal → Option (List JVal)
  | [] => some []
  | m :: t =>
    match clean_message m with
    | .crash => none
    | .skip => clean_messages t
    | .keep v => (clean_messages t).map (v :: ·)

/-- Description truncation of `build_tool_prompt`. -/
def truncDesc (d : String) : String :=
  if d.length > MAX_TOOL_DESCRIPTION_CHARS then
    pyRstrip (String.mk (d.toList.take MAX_TOOL_DESCRIPTION_CHARS)) ++ "..."
  else d

/-- `tool.get("type") == "function"`. -/
def jTypeIsFunction (t : Obj) : Bool :=
  match Obj.get? t "type" with
  | some (.str ty) => ty = "function"
  | _ => false

/-- One iteration of the tool loop in `build_tool_prompt`: `none` models a
raised exception (attribute access on a non-dict `function` value or
`.strip()` on a non-string description), `some none` a skipped tool,
`some (some label)` an emitted line. -/
def tool_prompt_entry (tool : JVal) : Option (Option String) :=
  match tool with
  | .obj t =>
    if !jTypeIsFunction t then some none
    else
      match (Obj.get? t "function").getD (.obj []) with
      | .obj fn =>
          let name := (Obj.get? fn "name").getD .null
          if !name.pyTruthy then some none
          else
            match (Obj.get? fn "description").getD (.str "") with
            | .str d0 =>
                let desc := truncDesc (replaceChar (pyStrip d0) '\n' ' ')
                let params := (Obj.get? fn "parameters").getD (.obj [])
                let props : JVal :=
                  match params with
                  | .obj p => (Obj.get? p "properties").getD (.obj [])
                  | _ => .obj []
                let args :=
                  match props with
                  | .obj pr => String.intercalate ", " ((pr.map Prod.fst).mergeSort (fun a b => a ≤ b))
                  | _ => ""
                let label := "- " ++ pyStr name
                let label := if desc ≠ "" then label ++ ": " ++ desc else label
                let label := if args ≠ "" then label ++ " (args: " ++ args ++ ")" else label
                some (some label)
            | _ => none
      | _ => none
  | _ => some none

/-- The counting loop of `build_tool_prompt`, including the `- ...`
ellipsis line and break once `MAX_TOOL_COUNT_IN_PROMPT` is reached. -/
def build_tool_prompt_lines : List JVal → Nat → Option (List String)
  | [], _ => some []
  | tool :: rest, count =>
    match tool_prompt_entry tool with
    | none => none
    | some none => build_tool_prompt_lines rest count
    | some (some label) =>
        if count + 1 ≥ MAX_TOOL_COUNT_IN_PROMPT then some [label, "- ..."]
        else (build_tool_prompt_lines rest (count + 1)).map (label :: ·)

/-- The fixed header lines of `build_tool_prompt`. -/
def TOOL_PROMPT_HEADER : List String :=
  ["Tool usage:",
   "- If a tool is needed, respond ONLY with JSON:",
   "  \x7b\"tool\": \"<name>\", \"arguments\": \x7b ... \x7d\x7d",
   "- Otherwise, respond normally.",
   "Available tools:"]

/-- `build_tool_prompt` from the source: empty result for a falsy or
non-list payload, else the header plus one line per usable tool. -/
def build_tool_prompt (tools : Option JVal) : Option String :=
  match tools with
  | some (.arr ts) =>
      if ts.isEmpty then some ""
      else (build_tool_prompt_lines ts 0).map
        (fun ls => String.intercalate "\n" (TOOL_PROMPT_HEADER ++ ls))
  | _ => some ""

/-- `m.get("role") == "user"` for a message value. -/
def jIsUserMsg (m : JVal) : Bool :=
  match m with
  | .obj o =>
    match Obj.get? o "role" with
    | some (.str r) => r = "user"
    | _ => false
  | _ => false

/-- `m.get("role") == "system"` for a message value. -/
def jIsSystemMsg (m : JVal) : Bool :=
  match m with
  | .obj o =>
    match Obj.get? o "role" with
    | some (.str r) => r = "system"
    | _ => false
  | _ => false

/-- The `user_msgs` comprehension of `simplify_messages`; `none` models
the `AttributeError` raised by `.get` on a non-dict element. -/
def collectUserMsgs : List JVal → Option (List JVal)
  | [] => some []
  | m :: t =>
    match m with
    | .obj _ => (collectUserMsgs t).map (fun r => if jIsUserMsg m then m :: r else r)
    | _ => none

/-- The `sum(len(c) for c in original_sys_msgs)` computation of
`simplify_messages` (drives only a log line, but can raise `TypeError`
on unsized system content — modelled by `none`). -/
def systemContentLens : List JVal → Option Nat
  | [] => some 0
  | m :: t =>
    match m with
    | .obj o =>
      if jIsSystemMsg m then
        match JVal.pyLen ((Obj.get? o "content").getD (.str "")) with
        | none => none
        | some n => (systemContentLens t).map (n + ·)
      else systemContentLens t
    | _ => none

/-- The replacement system-prompt content built by `simplify_messages`. -/
def synth_system_content (cfg : ProxyConfig) (tool_prompt : String) : String :=
  let sc := MINIMAL_SYSTEM_PROMPT
  let sc := if tool_prompt ≠ "" then sc ++ "\n\n" ++ tool_prompt else sc
  if cfg.skillsBlock ≠ "" then sc ++ "\n\nAvailable skills:\n" ++ cfg.skillsBlock else sc

/-- The single system message prepended by `simplify_messages`. -/
def synth_system_message (cfg : ProxyConfig) (tool_prompt : String) : JVal :=
  .obj [("role", .str "system"), ("content", .str (synth_system_content cfg tool_prompt))]

/-- `simplify_messages` from the source, on a message list: keep only user
messages, trim to the last `MAX_HISTORY_MESSAGES`, and prepend the
synthesized system message.  `none` models a raised exception. -/
def simplify_messages (cfg : ProxyConfig) (messages : List JVal) (tool_prompt : String) :
    Option (List JVal) :=
  if messages.isEmpty then some messages
  else
    match collectUserMsgs messages, systemContentLens messages with
    | some users, some _ =>
        let users :=
          if (users.length : Int) > cfg.maxHistory then pySliceLast users cfg.maxHistory
          else users
        some (synth_system_message cfg tool_prompt :: users)
    | _, _ => none

/-- `simplify_messages` applied to an arbitrary `messages` value, as the
tail of `sanitize_chat_body` does: a falsy value is returned unchanged by
the `if not messages` early exit, a truthy non-list raises. -/
def simplify_value (cfg : ProxyConfig) (mv : JVal) (tool_prompt : String) : Option JVal :=
  match mv with
  | .arr msgs => (simplify_messages cfg msgs tool_prompt).map .arr
  | v => if v.pyTruthy then none else some v

/-- `isinstance(x, int) and x > 0` on a Python value (`bool` is an `int`
subtype in Python), returning the numeric value and the original object. -/
def pyPosInt : Option JVal → Option (Int × JVal)
  | some (.int n) => if n > 0 then some (n, .int n) else none
  | some (.bool true) => some (1, .bool true)
  | _ => none

/-- The token-ceiling resolution of `sanitize_chat_body` (lines 314-322):
prefer a positive `max_tokens` clamped by `min` to the ceiling, else a
positive `max_completion_tokens` with the same clamp, else the ceiling.
Python's `min` returns its first argument on ties, preserving the
original object. -/
def resolve_max_tokens (ceiling : Int) (mt mct : Option JVal) : JVal :=
  match pyPosInt mt with
  | some (n, v) => if n ≤ ceiling then v else .int ceiling
  | none =>
    match pyPosInt mct with
    | some (n, v) => if n ≤ ceiling then v else .int ceiling
    | none => .int ceiling

/-- Result of `sanitize_chat_body`: the original bytes passed through
(unparseable or non-dict body), a raised exception, or the sanitized
body that is serialized and forwarded. -/
inductive SanitizeOut where
  | passthrough
  | error
  | ok (body : Obj)

/-- The field-filtering dict comprehension of `sanitize_chat_body`
(line 280): keep recognized fields whose value is not `None`. -/
def chat_filtered (d : Obj) : Obj :=
  d.filter (fun kv => kv.1 ∈ ALLOWED_CHAT_FIELDS && !(kv.2 matches .null))

/-- The message-cleaning step of `sanitize_chat_body` (lines 293-310):
applies only when `messages` holds a list; `none` models the raised
`TypeError` of the content join. -/
def chat_messages_cleaned (sanitized : Obj) : Option Obj :=
  match Obj.get? sanitized "messages" with
  | some (.arr msgs) =>
      (clean_messages msgs).map (fun cleaned => Obj.set sanitized "messages" (.arr cleaned))
  | _ => some sanitized

/-- The scalar steps of `sanitize_chat_body` before the `n` clamp
(lines 312-322): force `stream` to `False`, resolve and clamp
`max_tokens`, drop `max_completion_tokens`. -/
def chat_scalar_pre (cfg : ProxyConfig) (step3 : Obj) : Obj :=
  let step4 := Obj.set step3 "stream" (.bool false)
  let step5 := Obj.set step4 "max_tokens"
    (resolve_max_tokens cfg.maxTokens (Obj.get? step4 "max_tokens")
      (Obj.get? step4 "max_completion_tokens"))
  Obj.erase step5 "max_completion_tokens"

/-- The scalar steps of `sanitize_chat_body` (lines 312-325):
`chat_scalar_pre` followed by the `n` clamp. -/
def chat_scalar_steps (cfg : ProxyConfig) (step3 : Obj) : Obj :=
  let step6 := chat_scalar_pre cfg step3
  match Obj.get? step6 "n" with
  | some (.int n) => if n > 1 then Obj.set step6 "n" (.int 1) else step6
  | _ => step6

/-- `sanitize_chat_body` from the source, on the `json.loads` result of
the request body (`none` = parse exception).  File dumps and logging are
side effects and are omitted. -/
def sanitize_chat_body (cfg : ProxyConfig) (parsed : Option JVal)
    (tool_prompt_enabled : Bool) : SanitizeOut :=
  match parsed with
  | none => .passthrough
  | some (.obj d) =>
      let sanitized := chat_filtered d
      let tools_payload :=
        if tool_prompt_enabled then Obj.get? sanitized "tools" else none
      let sanitized := Obj.erase sanitized "tools"
      match chat_messages_cleaned sanitized with
      | none => .error
      | some step3 =>
        let step7 := chat_scalar_steps cfg step3
        match Obj.get? step7 "messages" with
        | none => .ok step7
        | some mv =>
          match build_tool_prompt tools_payload with
          | none => .error
          | some tp =>
            match simplify_value cfg mv tp with
            | none => .error
            | some mv' => .ok (Obj.set step7 "messages" mv')
  | some _ => .passthrough

/-! ## Tool-call recovery (`parse_tool_call`, `normalize_exec_command`,
`remap_tool_call`) -/

/-- The backtick character. -/
def btickC : Char := Char.ofNat 96

/-- Left and right brace characters. -/
def lbraceC : Char := Char.ofNat 123

def rbraceC : Char := Char.ofNat 125

/-- The code-fence stripping prelude of `parse_tool_call`: when the
trimmed text starts with three backticks, strip backticks from both ends,
drop the first occurrence of `json`, and trim again. -/
def strip_code_fence (raw : String) : String :=
  if pyStartsWith raw "```" then
    pyStrip (removeFirst (pyStripChar raw btickC) "json")
  else raw

/-- Attempt to match the regex `"K"\s*:\s*"([^"]+)"` anchored at the head
of `cs` for a fixed key `key`, returning the capture. -/
def matchKeyAt (cs : List Char) (key : List Char) : Option String :=
  match cs with
  | '"' :: rest =>
    if key.isPrefixOf rest then
      match rest.drop key.length with
      | '"' :: rest2 =>
        match rest2.dropWhile pyIsSpace with
        | ':' :: rest4 =>
          match rest4.dropWhile pyIsSpace with
          | '"' :: rest6 =>
            let cap := rest6.takeWhile (fun c => !(c = '"'))
            if cap.isEmpty then none
            else
              match rest6.drop cap.length with
              | '"' :: _ => some (String.mk cap)
              | _ => none
          | _ => none
        | _ => none
      | _ => none
    else none
  | _ => none

/-- Ordered alternation of keys at one position (regex alternation order). -/
def tryKeysAt (cs : List Char) : List (List Char) → Option String
  | [] => none
  | k :: ks =>
    match matchKeyAt cs k with
    | some s => some s
    | none => tryKeysAt cs ks

/-- `re.search` of `"(K1|K2|...)"\s*:\s*"([^"]+)"`: leftmost match wins,
alternatives tried in order at each position. -/
def scanKeys : List Char → List (List Char) → Option String
  | [], _ => none
  | c :: t, keys =>
    match tryKeysAt (c :: t) keys with
    | some s => some s
    | none => scanKeys t keys

/-- The balanced-brace scan of `parse_tool_call` (tier b), starting at the
first `{` of the text: returns the span through the matching close brace,
or `none` when the braces never balance. -/
def braceScan : List Char → Int → Option (List Char)
  | [], _ => none
  | c :: rest, depth =>
    if c = lbraceC then (braceScan rest (depth + 1)).map (c :: ·)
    else if c = rbraceC then
      if depth - 1 = 0 then some [c]
      else (braceScan rest (depth - 1)).map (c :: ·)
    else (braceScan rest depth).map (c :: ·)

/-- The regex-fallback payload construction of `parse_tool_call`
(tier c): recover a tool name and the known argument keys directly from
the raw text. -/
def regex_fallback_payload (cs : List Char) : Option JVal :=
  match scanKeys cs ["tool".toList, "name".toList, "tool_name".toList, "skill".toList] with
  | none => none
  | some nm =>
    let addArg : Obj → String → List (List Char) → Obj := fun o k keys =>
      match scanKeys cs keys with
      | some v => Obj.set o k (.str v)
      | none => o
    let args := addArg [] "command" ["command".toList]
    let args := addArg args "file_path" ["file_path".toList, "path".toList]
    let args := addArg args "message" ["message".toList]
    let args := addArg args "sessionKey" ["sessionKey".toList]
    some (.obj [("tool", .str nm), ("arguments", .obj args)])

/-- A recovered tool call `{"name": ..., "arguments": ...}`; the
`isinstance(args, dict)` guard of the source makes the arguments a dict. -/
structure ToolCall where
  name : JVal
  arguments : Obj

/-- Python `a or b` where `a` is a `dict.get` result (`none` = key
absent = `None`). -/
def pyGetOr (o : Option JVal) (rest : JVal) : JVal :=
  match o with
  | some v => if v.pyTruthy then v else rest
  | none => rest

/-- The recovered name of a payload dict: the Python `or`-chain
`payload.get("tool") or payload.get("name") or payload.get("tool_name")
or payload.get("skill")`. -/
def tcNameOf (p : Obj) : JVal :=
  pyGetOr (Obj.get? p "tool")
    (pyGetOr (Obj.get? p "name")
      (pyGetOr (Obj.get? p "tool_name") ((Obj.get? p "skill").getD .null)))

/-- The recovered arguments of a payload dict: the Python `or`-chain
`payload.get("arguments") or payload.get("args") or {}` (so any falsy
arguments value collapses to the empty dict). -/
def tcArgsOf (p : Obj) : JVal :=
  pyGetOr (Obj.get? p "arguments") (pyGetOr (Obj.get? p "args") (.obj []))

/-- The common validation tail of `parse_tool_call` (lines 524-541): the
falsy-name and non-dict-arguments rejections over `tcNameOf`/`tcArgsOf`.
A name outside `allowed` is only logged, never rejected. -/
def finish_payload (payload : JVal) (_allowed : Option (List String)) : Option ToolCall :=
  match payload with
  | .obj p =>
    if !(tcNameOf p).pyTruthy then none
    else
      match tcArgsOf p with
      | .obj a => some ⟨tcNameOf p, a⟩
      | _ => none
  | _ => none

/-- Tiers (b) and (c) of `parse_tool_call`, reached when the whole
trimmed text fails to parse: scan for the first balanced brace span and
parse it, or — when the text holds no `{` at all — fall back to regex
extraction. -/
def parse_tool_call_fallback (jl : String → Option JVal) (raw : String)
    (allowed : Option (List String)) : Option ToolCall :=
  let cs := raw.toList
  let fromBrace := cs.dropWhile (fun c => !(c = lbraceC))
  if fromBrace.isEmpty then
    match regex_fallback_payload cs with
    | none => none
    | some payload => finish_payload payload allowed
  else
    match braceScan fromBrace 0 with
    | none => none
    | some span =>
      match jl (String.mk span) with
      | none => none
      | some payload => finish_payload payload allowed

/-- `parse_tool_call` from the source: falsy or non-string content yields
nothing; otherwise tier (a) parses the whole trimmed text, with
`parse_tool_call_fallback` covering tiers (b) and (c).
`jl` is the `json.loads` oracle. -/
def parse_tool_call (jl : String → Option JVal) (content : JVal)
    (allowed : Option (List String)) : Option ToolCall :=
  if !content.pyTruthy then none
  else
    match content with
    | .str s =>
      let raw := strip_code_fence (pyStrip s)
      match jl raw with
      | some payload => finish_payload payload allowed
      | none => parse_tool_call_fallback jl raw allowed
    | _ => none

/-- `normalize_exec_command` from the source: non-strings normalize to
`""`; a leading `. ` is dropped; a `.py` command not already starting
with `python` is prefixed with `python3 `. -/
def normalize_exec_command (command : JVal) : String :=
  match command with
  | .str s =>
    let cmd := pyStrip s
    let cmd := if pyStartsWith cmd ". " then pyStrip (pyDrop cmd 2) else cmd
    if pyEndsWith cmd ".py" && !(pyStartsWith cmd "python") then "python3 " ++ cmd else cmd
  | _ => ""

/-- `remap_tool_call` from the source: a blocked tool name suppresses the
call entirely; an `exec` call gets its command normalized (when the
normalized command is truthy); everything else passes through.  The
`latest_user_text` and `allowed_tool_names` parameters of the source are
unused by its body. -/
def remap_tool_call (tc : Option ToolCall) : Option ToolCall :=
  match tc with
  | none => none
  | some t =>
    match t.name with
    | .str s =>
      if s ∈ BLOCKED_TOOL_NAMES then none
      else if s = "exec" then
        let cmd := normalize_exec_command ((Obj.get? t.arguments "command").getD (.str ""))
        if cmd ≠ "" then some ⟨t.name, [("command", .str cmd)]⟩ else some t
      else some t
    | _ => some t

/-! ## JSON serialization (`json.dumps` with default separators and
`ensure_ascii=True`) -/

def hexDigit (n : Nat) : Char :=
  if n < 10 then Char.ofNat (48 + n) else Char.ofNat (87 + n)

def hex4 (n : Nat) : String :=
  String.mk [hexDigit (n / 4096 % 16), hexDigit (n / 256 % 16),
             hexDigit (n / 16 % 16), hexDigit (n % 16)]

/-- `json.dumps` escaping of one character (`ensure_ascii=True`). -/
def jescChar (c : Char) : String :=
  if c = '"' then "\\\""
  else if c = '\\' then "\\\\"
  else if c = '\n' then "\\n"
  else if c = '\r' then "\\r"
  else if c = '\t' then "\\t"
  else if c = Char.ofNat 8 then "\\b"
  else if c = Char.ofNat 12 then "\\f"
  else if c.toNat < 32 then "\\u" ++ hex4 c.toNat
  else if c.toNat < 127 then String.singleton c
  else if c.toNat < 65536 then "\\u" ++ hex4 c.toNat
  else
    "\\u" ++ hex4 (55296 + (c.toNat - 65536) / 1024) ++
    "\\u" ++ hex4 (56320 + (c.toNat - 65536) % 1024)

def jdumpStr (s : String) : String :=
  "\"" ++ String.join (s.toList.map jescChar) ++ "\""

mutual

/-- `json.dumps` with the default separators `", "` and `": "`
(`jdumpArr` and `jdumpObj` render the comma-joined element lists). -/
def jdump : JVal → String
  | .null => "null"
  | .bool b => if b then "true" else "false"
  | .int n => toString n
  | .str s => jdumpStr s
  | .arr l => "[" ++ jdumpArr l ++ "]"
  | .obj o => "\x7b" ++ jdumpObj o ++ "\x7d"

def jdumpArr : List JVal → String
  | [] => ""
  | [x] => jdump x
  | x :: y :: t => jdump x ++ ", " ++ jdumpArr (y :: t)

def jdumpObj : List (String × JVal) → String
  | [] => ""
  | [(k, v)] => jdumpStr k ++ ": " ++ jdump v
  | (k, v) :: x :: t => jdumpStr k ++ ": " ++ jdump v ++ ", " ++ jdumpObj (x :: t)

end

/-! ## Response normalization (`sanitize_response`) -/

/-- The synthesized `tool_calls` entry attached by `sanitize_response`:
a time-derived id, fixed type `function`, and the argument mapping
re-serialized to text. -/
def toolCallJson (nowMs : Int) (tc : ToolCall) : JVal :=
  .obj [("id", .str ("call_" ++ toString nowMs)),
        ("type", .str "function"),
        ("function", .obj [("name", tc.name),
                           ("arguments", .str (jdump (.obj tc.arguments)))])]

/-- Tail of the per-choice repair loop of `sanitize_response`, after the
tool call has been recovered (or not): rebuild the message to
`{role, content, refusal}` — clearing the content and attaching a
synthesized `tool_calls` entry when a call was recovered — and return
the rebuilt choice with `len(content)`. -/
def finish_choice (nowMs : Int) (c m : Obj) (content : JVal)
    (tool_call : Option ToolCall) : Option (JVal × Nat) :=
  match content.pyLen with
  | none => none
  | some len =>
    let role := (Obj.get? m "role").getD (.str "assistant")
    let newmsg : Obj :=
      match tool_call with
      | some tc =>
          [("role", role), ("content", .str ""), ("refusal", .null),
           ("tool_calls", .arr [toolCallJson nowMs tc])]
      | none => [("role", role), ("content", content), ("refusal", .null)]
    some (.obj (Obj.set c "message" (.obj newmsg)), len)

/-- One iteration of the per-choice repair loop of `sanitize_response`:
default `finish_reason`/`logprobs`, extract the message content, run the
parser/remapper against it when tool calls are enabled, then rebuild via
`finish_choice`.  `none` models a raised exception (non-dict choice or
message, unsized content). -/
def sanitize_choice (jl : String → Option JVal) (allowed : Option (List String))
    (enabled : Bool) (nowMs : Int) (choice : JVal) : Option (JVal × Nat) :=
  match choice with
  | .obj c =>
    let c := Obj.setdefault c "finish_reason" (.str "stop")
    let c := Obj.setdefault c "logprobs" .null
    match (Obj.get? c "message").getD (.obj []) with
    | .obj m =>
      let content := (Obj.get? m "content").getD (.str "")
      finish_choice nowMs c m content
        (if enabled then remap_tool_call (parse_tool_call jl content allowed) else none)
    | _ => none
  | _ => none

/-- The choice loop of `sanitize_response`, threading `total_chars`. -/
def sanitize_choices (jl : String → Option JVal) (allowed : Option (List String))
    (enabled : Bool) (nowMs : Int) : List JVal → Option (List JVal × Nat)
  | [] => some ([], 0)
  | c :: t =>
    match sanitize_choice jl allowed enabled nowMs c with
    | none => none
    | some (c', len) =>
      (sanitize_choices jl allowed enabled nowMs t).map
        (fun r => (c' :: r.1, len + r.2))

/-- Result of `sanitize_response`: the original bytes passed through
(unparseable or non-dict body), a raised exception, or the repaired
response object that is serialized and returned. -/
inductive RespOut where
  | passthrough
  | error
  | ok (body : Obj)

/-- The timestamp repair of `sanitize_response` (lines 601-605): an
integer `created` above `1e15` is divided down from nanoseconds to
seconds (floor division); a falsy `created` (absent defaults to `0`) is
replaced by the current time; anything else is left alone. -/
def fix_created (now : Int) (r0 : Obj) : Obj :=
  match (Obj.get? r0 "created").getD (.int 0) with
  | .int n =>
    if n > 1000000000000000 then Obj.set r0 "created" (.int (n / 1000000000))
    else if n = 0 then Obj.set r0 "created" (.int now) else r0
  | c => if c.pyTruthy then r0 else Obj.set r0 "created" (.int now)

/-- The usage-estimation epilogue of `sanitize_response` (lines 644-652):
when no `usage` block is present, estimate completion tokens as
`total_chars // 4` (minimum 1) with a fixed prompt-token placeholder. -/
def finalize_usage (r4 : Obj) (total_chars : Nat) : RespOut :=
  match Obj.get? r4 "usage" with
  | some _ => .ok r4
  | none =>
    let est : Nat := max 1 (total_chars / 4)
    .ok (Obj.set r4 "usage" (.obj [("prompt_tokens", .int 100),
                                   ("completion_tokens", .int est),
                                   ("total_tokens", .int (100 + est))]))

/-- `sanitize_response` from the source, on the `json.loads` result of
the upstream body: fix a nanosecond-magnitude or falsy `created`, default
`object`/`system_fingerprint`, repair every choice, and estimate a
`usage` block when absent.  `now` is `int(time.time())` and `nowMs` is
`int(time.time() * 1000)`. -/
def sanitize_response (jl : String → Option JVal) (allowed : Option (List String))
    (enabled : Bool) (now nowMs : Int) (parsed : Option JVal) : RespOut :=
  match parsed with
  | none => .passthrough
  | some (.obj r0) =>
    let r1 := fix_created now r0
    let r2 := Obj.setdefault r1 "object" (.str "chat.completion")
    let r3 := Obj.setdefault r2 "system_fingerprint" (.str "hailo-ollama")
    let step : Option (Obj × Nat) :=
      match Obj.get? r3 "choices" with
      | none => some (r3, 0)
      | some (.arr cs) =>
        match sanitize_choices jl allowed enabled nowMs cs with
        | none => none
        | some (cs', tot) => some (Obj.set r3 "choices" (.arr cs'), tot)
      | some (.str s) => if s = "" then some (r3, 0) else none
      | some (.obj o) => if o.isEmpty then some (r3, 0) else none
      | some _ => none
    match step with
    | none => .error
    | some (r4, total_chars) => finalize_usage r4 total_chars
  | some _ => .passthrough

/-! ## Streaming transcoder (`to_sse`) -/

/-- One serialized SSE frame: a `data: <json>` frame, a verbatim
`data: <raw>` frame (unparseable input), or the `data: [DONE]` sentinel. -/
inductive SseFrame where
  | dataJson (v : JVal)
  | dataRaw (s : String)
  | done

/-- A `chat.completion.chunk` frame as built by `to_sse`, with one choice
and optionally the trailing `usage` key (finish frame only). -/
def sse_chunk (cid created model fp : JVal) (choice : JVal) (usage : Option JVal) : JVal :=
  .obj ([("id", cid), ("object", .str "chat.completion.chunk"), ("created", created),
         ("model", model), ("system_fingerprint", fp), ("choices", .arr [choice])] ++
        (match usage with
         | some u => [("usage", u)]
         | none => []))

def sse_role_choice : JVal :=
  .obj [("index", .int 0),
        ("delta", .obj [("role", .str "assistant"), ("content", .str ""), ("refusal", .null)]),
        ("logprobs", .null), ("finish_reason", .null)]

def sse_tool_choice (tool_calls : JVal) : JVal :=
  .obj [("index", .int 0), ("delta", .obj [("tool_calls", tool_calls)]),
        ("logprobs", .null), ("finish_reason", .null)]

def sse_content_choice (content : JVal) : JVal :=
  .obj [("index", .int 0), ("delta", .obj [("content", content)]),
        ("logprobs", .null), ("finish_reason", .null)]

def sse_finish_choice : JVal :=
  .obj [("index", .int 0), ("delta", .obj []), ("logprobs", .null),
        ("finish_reason", .str "stop")]

/-- The content / tool-calls extraction of `to_sse` (lines 667-672): a
truthy `choices` value yields the first choice's message content and
`tool_calls`; a falsy one yields the initial `("", None)`.  `none`
models a raised exception (ill-shaped `choices`). -/
def sse_extract (r : Obj) : Option (JVal × JVal) :=
  let chv := (Obj.get? r "choices").getD .null
  if chv.pyTruthy then
    match chv with
    | .arr (c0 :: _) =>
      match c0 with
      | .obj c =>
        match (Obj.get? c "message").getD (.obj []) with
        | .obj m =>
          some ((Obj.get? m "content").getD (.str ""), (Obj.get? m "tool_calls").getD .null)
        | _ => none
      | _ => none
    | _ => none
  else some (.str "", .null)

/-- The frame sequence built by `to_sse` (lines 674-706): role frame,
optional tool-call frame, optional content frame, finishing frame with
`usage`, and the done sentinel. -/
def sse_frames (cid model created fp usage content tool_calls : JVal) : List SseFrame :=
  [.dataJson (sse_chunk cid created model fp sse_role_choice none)] ++
  (if tool_calls.pyTruthy then
    [.dataJson (sse_chunk cid created model fp (sse_tool_choice tool_calls) none)]
   else []) ++
  (if content.pyTruthy && !tool_calls.pyTruthy then
    [.dataJson (sse_chunk cid created model fp (sse_content_choice content) none)]
   else []) ++
  [.dataJson (sse_chunk cid created model fp sse_finish_choice (some usage)), .done]

/-- `to_sse` from the source, on the raw body `data` and its parse
result: unparseable input is wrapped verbatim as a single data frame plus
the sentinel; otherwise the frames of `sse_frames` are synthesized from
the defaulted header fields and the extraction of `sse_extract`. -/
def to_sse (now : Int) (data : String) (parsed : Option JVal) : Option (List SseFrame) :=
  match parsed with
  | none => some [.dataRaw data, .done]
  | some (.obj r) =>
    let cid := (Obj.get? r "id").getD (.str "chatcmpl-0")
    let model := (Obj.get? r "model").getD (.str "unknown")
    let created := (Obj.get? r "created").getD (.int now)
    let fp := (Obj.get? r "system_fingerprint").getD (.str "hailo-ollama")
    let usage := (Obj.get? r "usage").getD (.obj [])
    match sse_extract r with
    | none => none
    | some (content, tool_calls) =>
      some (sse_frames cid model created fp usage content tool_calls)
  | some _ => none

/-! ## Security gate (`_validate_request_security` and the `_proxy`
prelude) -/

/-- The host/origin allow-lists and the allow-no-origin flag
(`ALLOWED_HOSTS`, `CORS_ALLOWED_ORIGINS`, `CORS_ALLOW_NO_ORIGIN`,
environment-derived; the set constructions drop empty items, so `""` is
never a member). -/
structure SecurityConfig where
  allowedHosts : List String
  allowedOrigins : List String
  allowNoOrigin : Bool

/-- `_host_header`: the stripped, lowercased Host header, `""` when the
header is missing or empty. -/
def host_header (h : Option String) : String :=
  match h with
  | some s => if s = "" then "" else pyLower (pyStrip s)
  | none => ""

/-- `_origin_header`: the stripped Origin header, `""` when missing or
empty. -/
def origin_header (h : Option String) : String :=
  match h with
  | some s => if s = "" then "" else pyStrip s
  | none => ""

/-- `_is_host_allowed`. -/
def is_host_allowed (cfg : SecurityConfig) (host : String) : Bool :=
  if host = "" then false else host ∈ cfg.allowedHosts

/-- `_is_origin_allowed`. -/
def is_origin_allowed (cfg : SecurityConfig) (origin : String) : Bool :=
  if origin = "" then cfg.allowNoOrigin else origin ∈ cfg.allowedOrigins

/-- Outcome of `_validate_request_security`: a 403 denial with its
reason, or acceptance. -/
inductive GateResult where
  | denied (code : Nat) (reason : String)
  | allowed

/-- `_validate_request_security` from the source: the host check runs
first and denies with 403 `forbidden host`; then the origin check denies
with 403 `forbidden origin`; otherwise the request proceeds. -/
def validate_request_security (cfg : SecurityConfig) (hostH originH : Option String) :
    GateResult :=
  if !is_host_allowed cfg (host_header hostH) then .denied 403 "forbidden host"
  else if !is_origin_allowed cfg (origin_header originH) then .denied 403 "forbidden origin"
  else .allowed

/-- Observable effects of the `_proxy` prelude (lines 923-930). -/
inductive ProxyEffect where
  | respond (code : Nat)
  | readBody
  | upstreamCall

/-- The `_proxy` prelude: the security gate runs before anything else; on
denial the handler responds 403 and returns — the body is read (and any
upstream call made) only on the allowed path, abstracted by `onAllowed`. -/
def proxy_prelude (cfg : SecurityConfig) (hostH originH : Option String)
    (onAllowed : List ProxyEffect) : List ProxyEffect :=
  match validate_request_security cfg hostH originH with
  | .denied code _ => [.respond code]
  | .allowed => .readBody :: onAllowed

/-! ## Dictionary-operation lemmas -/

theorem Obj.get?_set_self (o : Obj) (k : String) (v : JVal) :
    Obj.get? (Obj.set o k v) k = some v := by
  induction o with
  | nil => simp [Obj.set, Obj.get?]
  | cons kv t ih =>
    obtain ⟨k2, v2⟩ := kv
    by_cases h : k2 = k <;> simp [Obj.set, Obj.get?, h, ih]

theorem Obj.get?_set_ne (o : Obj) (k k' : String) (v : JVal) (h : k' ≠ k) :
    Obj.get? (Obj.set o k v) k' = Obj.get? o k' := by
  induction o with
  | nil => simp [Obj.set, Obj.get?, Ne.symm h]
  | cons kv t ih =>
    obtain ⟨k2, v2⟩ := kv
    by_cases h2 : k2 = k <;> simp [Obj.set, Obj.get?, h2, ih, Ne.symm h]

theorem Obj.get?_erase_self (o : Obj) (k : String) :
    Obj.get? (Obj.erase o k) k = none := by
  induction o with
  | nil => rfl
  | cons kv t ih =>
    obtain ⟨k2, v2⟩ := kv
    by_cases h2 : k2 = k <;> simp [Obj.erase, Obj.get?, h2, ih]

theorem Obj.get?_erase_ne (o : Obj) (k k' : String) (h : k' ≠ k) :
    Obj.get? (Obj.erase o k) k' = Obj.get? o k' := by
  induction o with
  | nil => rfl
  | cons kv t ih =>
    obtain ⟨k2, v2⟩ := kv
    by_cases h2 : k2 = k
    · subst h2
      simp [Obj.erase, Obj.get?, Ne.symm h, ih]
    · by_cases h3 : k2 = k' <;> simp [Obj.erase, Obj.get?, h2, h3, h, ih]

theorem Obj.get?_append (o1 o2 : Obj) (k : String) :
    Obj.get? (o1 ++ o2) k =
      match Obj.get? o1 k with
      | some v => some v
      | none => Obj.get? o2 k := by
  induction o1 with
  | nil => simp [Obj.get?]
  | cons kv t ih =>
    obtain ⟨k2, v2⟩ := kv
    by_cases h2 : k2 = k <;> simp [Obj.get?, h2, ih]

theorem Obj.get?_setdefault_ne (o : Obj) (k k' : String) (v : JVal) (h : k' ≠ k) :
    Obj.get? (Obj.setdefault o k v) k' = Obj.get? o k' := by
  unfold Obj.setdefault
  cases hg : Obj.get? o k with
  | some w => rfl
  | none =>
    rw [Obj.get?_append]
    cases hg' : Obj.get? o k' with
    | some w => rfl
    | none => simp [Obj.get?, Ne.symm h]

theorem Obj.setdefault_of_present (o : Obj) (k : String) (v w : JVal)
    (h : Obj.get? o k = some w) : Obj.setdefault o k v = o := by
  unfold Obj.setdefault
  rw [h]

theorem Obj.set_of_get (o : Obj) (k : String) (v : JVal)
    (h : Obj.get? o k = some v) : Obj.set o k v = o := by
  induction o with
  | nil => simp [Obj.get?] at h
  | cons kv t ih =>
    obtain ⟨k2, v2⟩ := kv
    by_cases h2 : k2 = k
    · subst h2
      simp [Obj.get?] at h
      simp [Obj.set, h]
    · simp [Obj.get?, h2] at h
      simp [Obj.set, h2, ih h]

theorem Obj.mem_set (o : Obj) (k : String) (v : JVal) (kv : String × JVal)
    (h : kv ∈ Obj.set o k v) : kv = (k, v) ∨ kv ∈ o := by
  induction o with
  | nil => simpa [Obj.set] using h
  | cons kv2 t ih =>
    obtain ⟨k2, v2⟩ := kv2
    by_cases h2 : k2 = k
    · simp [Obj.set, h2] at h
      rcases h with h | h
      · exact Or.inl h
      · exact Or.inr (List.mem_cons_of_mem _ h)
    · simp [Obj.set, h2] at h
      rcases h with h | h
      · exact Or.inr (by simp [h])
      · rcases ih h with h3 | h3
        · exact Or.inl h3
        · exact Or.inr (List.mem_cons_of_mem _ h3)

theorem Obj.mem_erase (o : Obj) (k : String) (kv : String × JVal)
    (h : kv ∈ Obj.erase o k) : kv ∈ o := by
  induction o with
  | nil => simp [Obj.erase] at h
  | cons kv2 t ih =>
    obtain ⟨k2, v2⟩ := kv2
    by_cases h2 : k2 = k
    · simp only [Obj.erase, if_pos h2] at h
      exact List.mem_cons_of_mem _ (ih h)
    · simp only [Obj.erase, if_neg h2, List.mem_cons] at h
      rcases h with h | h
      · exact by simp [h]
      · exact List.mem_cons_of_mem _ (ih h)

theorem Obj.get?_eq_none_of_not_mem_keys (o : Obj) (k : String)
    (h : k ∉ o.map Prod.fst) : Obj.get? o k = none := by
  induction o with
  | nil => rfl
  | cons kv t ih =>
    obtain ⟨k2, v2⟩ := kv
    have h1 : k2 ≠ k := fun he => h (by simp [he])
    have h2 : k ∉ t.map Prod.fst := fun hm => h (by simp [hm])
    simp [Obj.get?, h1, ih h2]

theorem Obj.get?_filter (p : String × JVal → Bool) (o : Obj) (k : String)
    (h : (o.map Prod.fst).Nodup) :
    Obj.get? (o.filter p) k =
      match Obj.get? o k with
      | some v => if p (k, v) then some v else none
      | none => none := by
  induction o with
  | nil => rfl
  | cons kv t ih =>
    obtain ⟨k2, v2⟩ := kv
    simp only [List.map_cons, List.nodup_cons] at h
    by_cases h2 : k2 = k
    · subst h2
      by_cases hp : p (k2, v2)
      · simp [List.filter_cons, hp, Obj.get?]
      · have hnone : Obj.get? (t.filter p) k2 = none := by
          apply Obj.get?_eq_none_of_not_mem_keys
          intro hmem
          apply h.1
          obtain ⟨x, hx, hfst⟩ := List.mem_map.mp hmem
          exact List.mem_map.mpr ⟨x, List.mem_of_mem_filter hx, hfst⟩
        simp [List.filter_cons, hp, Obj.get?, hnone]
    · by_cases hp : p (k2, v2) <;> simp [List.filter_cons, hp, Obj.get?, h2, ih h.2]

/-- `isinstance(x, dict)` for a parsed value. -/
def JVal.isObj : JVal → Bool
  | .obj _ => true
  | _ => false

/-! ## Claims -/

/-- C9: for every request body that is not parseable structured data or
whose parse result is not an object, `sanitize_chat_body` returns the
original bytes unchanged (pass-through) rather than failing. -/
theorem claim_C9 (cfg : ProxyConfig) (parsed : Option JVal) (tpe : Bool)
    (h : parsed = none ∨ ∃ v, parsed = some v ∧ v.isObj = false) :
    sanitize_chat_body cfg parsed tpe = SanitizeOut.passthrough := by
  rcases h with h | ⟨v, hp, hv⟩
  · subst h; rfl
  · subst hp
    cases v with
    | obj o => simp [JVal.isObj] at hv
    | null => rfl
    | bool b => rfl
    | int n => rfl
    | str s => rfl
    | arr l => rfl

/-- Witness for C9 at a concrete non-object body (a JSON array). -/
theorem claim_C9_witness :
    sanitize_chat_body ⟨128, 1, ""⟩ (some (.arr [.int 1])) true = SanitizeOut.passthrough :=
  claim_C9 _ _ _ (Or.inr ⟨.arr [.int 1], rfl, rfl⟩)

/-- C10: an empty incoming `messages` list is returned unchanged by
`simplify_messages` (no system message is synthesized), and the
sanitized request body still carries the empty list. -/
theorem claim_C10 (cfg : ProxyConfig) (tp : String) (tpe : Bool) :
    simplify_messages cfg [] tp = some [] ∧
    ∃ o, sanitize_chat_body cfg (some (.obj [("messages", .arr [])])) tpe = .ok o ∧
      Obj.get? o "messages" = some (.arr []) := by
  refine ⟨rfl, ?_⟩
  cases tpe <;>
    exact ⟨[("messages", .arr []), ("stream", .bool false), ("max_tokens", .int cfg.maxTokens)],
      rfl, rfl⟩

/-- C3: a request whose (normalized) Host header is outside the allow-set
is denied 403 regardless of Origin; with an allowed host, an empty or
missing Origin passes the gate iff the allow-no-origin flag is on; and a
denied request answers 403 only — the body is never read and no upstream
call is made. -/
theorem claim_C3 (cfg : SecurityConfig) (hostH originH : Option String)
    (rest : List ProxyEffect) :
    (host_header hostH ∉ cfg.allowedHosts →
      validate_request_security cfg hostH originH = .denied 403 "forbidden host") ∧
    (is_host_allowed cfg (host_header hostH) = true → origin_header originH = "" →
      (validate_request_security cfg hostH originH = .allowed ↔ cfg.allowNoOrigin = true)) ∧
    (∀ code reason, validate_request_security cfg hostH originH = .denied code reason →
      proxy_prelude cfg hostH originH rest = [.respond code] ∧
      ProxyEffect.readBody ∉ proxy_prelude cfg hostH originH rest ∧
      ProxyEffect.upstreamCall ∉ proxy_prelude cfg hostH originH rest) := by
  refine ⟨fun h => ?_, fun h1 h2 => ?_, fun code reason h => ?_⟩
  · have hfalse : is_host_allowed cfg (host_header hostH) = false := by
      unfold is_host_allowed
      split
      · rfl
      · simpa using h
    unfold validate_request_security
    rw [hfalse]
    rfl
  · unfold validate_request_security
    rw [h1, h2]
    unfold is_origin_allowed
    simp only [if_pos rfl]
    cases hno : cfg.allowNoOrigin <;> simp
  · have hp : proxy_prelude cfg hostH originH rest = [.respond code] := by
      unfold proxy_prelude
      rw [h]
    refine ⟨hp, ?_, ?_⟩ <;> rw [hp] <;> simp

/-- A concrete security configuration for the C3 witness (the default
allow-lists of the source, abbreviated). -/
def sec_cfg0 : SecurityConfig :=
  ⟨["localhost:8081"], ["http://localhost:8787"], true⟩

/-- Witness for C3: a disallowed host is denied 403 despite a valid
Origin; a missing Origin passes iff allow-no-origin; a denied request
produces only the 403 response effect. -/
theorem claim_C3_witness :
    validate_request_security sec_cfg0 (some "evil.example") (some "http://localhost:8787") =
      .denied 403 "forbidden host" ∧
    (validate_request_security sec_cfg0 (some "localhost:8081") none = .allowed ↔
      sec_cfg0.allowNoOrigin = true) ∧
    proxy_prelude sec_cfg0 (some "evil.example") (some "http://localhost:8787")
      [.readBody, .upstreamCall] = [.respond 403] :=
  ⟨(claim_C3 sec_cfg0 (some "evil.example") (some "http://localhost:8787") []).1 (by decide),
   (claim_C3 sec_cfg0 (some "localhost:8081") none []).2.1 (by decide) rfl,
   ((claim_C3 sec_cfg0 (some "evil.example") (some "http://localhost:8787")
       [.readBody, .upstreamCall]).2.2 403 "forbidden host"
     ((claim_C3 sec_cfg0 (some "evil.example") (some "http://localhost:8787")
       [.readBody, .upstreamCall]).1 (by decide))).1⟩

/-- The model-output text of the C4 scenario. -/
def exec_call_text : String :=
  "\x7b\"tool\": \"exec\", \"arguments\": \x7b\"command\": \"script.py\"\x7d\x7d"

/-- The `json.loads` value of `exec_call_text`. -/
def exec_call_val : JVal :=
  .obj [("tool", .str "exec"), ("arguments", .obj [("command", .str "script.py")])]

/-- Model output naming the blocked tool `read`. -/
def blocked_call_text : String := "\x7b\"tool\": \"read\"\x7d"

/-- The `json.loads` value of `blocked_call_text`. -/
def blocked_call_val : JVal := .obj [("tool", .str "read")]

/-- An upstream response whose single choice's content names the blocked
tool. -/
def blocked_resp : Obj :=
  [("created", .int 1731000000),
   ("choices", .arr [.obj [("message", .obj [("content", .str blocked_call_text)])]])]

/-- The `tool_calls` value of the first choice's message of a response
object, when present. -/
def msg_tool_calls (o : Obj) : Option JVal :=
  match Obj.get? o "choices" with
  | some (.arr (.obj c :: _)) =>
    match Obj.get? c "message" with
    | some (.obj m) => Obj.get? m "tool_calls"
    | _ => none
  | _ => none

/-- C4: parsing `{"tool": "exec", "arguments": {"command": "script.py"}}`
and remapping yields an `exec` call whose command is normalized to
`python3 script.py`; for output naming the blocked tool `read` the
remapper returns no call, and the normalized response carries no
`tool_calls` entry.  `jl` is any `json.loads` oracle agreeing with
Python on the two concrete texts. -/
theorem claim_C4 (jl : String → Option JVal) (allowed : Option (List String))
    (now nowMs : Int)
    (h1 : jl exec_call_text = some exec_call_val)
    (h2 : jl blocked_call_text = some blocked_call_val) :
    parse_tool_call jl (.str exec_call_text) allowed =
      some ⟨.str "exec", [("command", .str "script.py")]⟩ ∧
    remap_tool_call (parse_tool_call jl (.str exec_call_text) allowed) =
      some ⟨.str "exec", [("command", .str "python3 script.py")]⟩ ∧
    remap_tool_call (parse_tool_call jl (.str blocked_call_text) allowed) = none ∧
    ∃ out, sanitize_response jl allowed true now nowMs (some (.obj blocked_resp)) = .ok out ∧
      msg_tool_calls out = none := by
  have hp1 : parse_tool_call jl (.str exec_call_text) allowed =
      some ⟨.str "exec", [("command", .str "script.py")]⟩ := by
    have e : parse_tool_call jl (.str exec_call_text) allowed =
        (match jl exec_call_text with
         | some payload => finish_payload payload allowed
         | none => parse_tool_call_fallback jl exec_call_text allowed) := rfl
    rw [e, h1]
    rfl
  have hr1 : remap_tool_call (parse_tool_call jl (.str exec_call_text) allowed) =
      some ⟨.str "exec", [("command", .str "python3 script.py")]⟩ := by
    rw [hp1]; rfl
  have hp2 : parse_tool_call jl (.str blocked_call_text) allowed =
      some ⟨.str "read", []⟩ := by
    have e : parse_tool_call jl (.str blocked_call_text) allowed =
        (match jl blocked_call_text with
         | some payload => finish_payload payload allowed
         | none => parse_tool_call_fallback jl blocked_call_text allowed) := rfl
    rw [e, h2]
    rfl
  have hr2 : remap_tool_call (parse_tool_call jl (.str blocked_call_text) allowed) = none := by
    rw [hp2]; rfl
  have hc : sanitize_choice jl allowed true nowMs
      (.obj [("message", .obj [("content", .str blocked_call_text)])]) =
      some (.obj [("message", .obj [("role", .str "assistant"),
                                    ("content", .str blocked_call_text),
                                    ("refusal", .null)]),
                  ("finish_reason", .str "stop"), ("logprobs", .null)], 16) := by
    have e : sanitize_choice jl allowed true nowMs
        (.obj [("message", .obj [("content", .str blocked_call_text)])]) =
        finish_choice nowMs
          [("message", .obj [("content", .str blocked_call_text)]),
           ("finish_reason", .str "stop"), ("logprobs", .null)]
          [("content", .str blocked_call_text)]
          (.str blocked_call_text)
          (remap_tool_call (parse_tool_call jl (.str blocked_call_text) allowed)) := rfl
    rw [e, hr2]
    rfl
  have hcs : sanitize_choices jl allowed true nowMs
      [.obj [("message", .obj [("content", .str blocked_call_text)])]] =
      some ([.obj [("message", .obj [("role", .str "assistant"),
                                     ("content", .str blocked_call_text),
                                     ("refusal", .null)]),
                   ("finish_reason", .str "stop"), ("logprobs", .null)]], 16) := by
    have e : sanitize_choices jl allowed true nowMs
        [.obj [("message", .obj [("content", .str blocked_call_text)])]] =
        (match sanitize_choice jl allowed true nowMs
            (.obj [("message", .obj [("content", .str blocked_call_text)])]) with
         | none => none
         | some (c', len) =>
           (sanitize_choices jl allowed true nowMs []).map
             (fun r => (c' :: r.1, len + r.2))) := rfl
    rw [e, hc]
    rfl
  refine ⟨hp1, hr1, hr2, ?_⟩
  refine ⟨[("created", .int 1731000000),
           ("choices", .arr [.obj [("message", .obj [("role", .str "assistant"),
                                                     ("content", .str blocked_call_text),
                                                     ("refusal", .null)]),
                                   ("finish_reason", .str "stop"), ("logprobs", .null)]]),
           ("object", .str "chat.completion"),
           ("system_fingerprint", .str "hailo-ollama"),
           ("usage", .obj [("prompt_tokens", .int 100), ("completion_tokens", .int 4),
                           ("total_tokens", .int 104)])], ?_, rfl⟩
  show (match (match sanitize_choices jl allowed true nowMs
                  [.obj [("message", .obj [("content", .str blocked_call_text)])]] with
              | none => none
              | some (cs', tot) =>
                some (Obj.set [("created", .int 1731000000),
                               ("choices", .arr [.obj [("message",
                                  .obj [("content", .str blocked_call_text)])]]),
                               ("object", .str "chat.completion"),
                               ("system_fingerprint", .str "hailo-ollama")]
                      "choices" (.arr cs'), tot) : Option (Obj × Nat)) with
         | none => RespOut.error
         | some (r4, total_chars) => finalize_usage r4 total_chars) = RespOut.ok _
  rw [hcs]
  rfl

/-- A concrete `json.loads` oracle for the two C4 texts. -/
def jl_c4 : String → Option JVal := fun s =>
  if s = exec_call_text then some exec_call_val
  else if s = blocked_call_text then some blocked_call_val
  else none

/-- Witness for C4 at the concrete oracle `jl_c4`. -/
theorem claim_C4_witness :
    parse_tool_call jl_c4 (.str exec_call_text) (some ["exec"]) =
      some ⟨.str "exec", [("command", .str "script.py")]⟩ ∧
    remap_tool_call (parse_tool_call jl_c4 (.str exec_call_text) (some ["exec"])) =
      some ⟨.str "exec", [("command", .str "python3 script.py")]⟩ ∧
    remap_tool_call (parse_tool_call jl_c4 (.str blocked_call_text) (some ["exec"])) = none ∧
    ∃ out, sanitize_response jl_c4 (some ["exec"]) true 5 7 (some (.obj blocked_resp)) = .ok out ∧
      msg_tool_calls out = none :=
  claim_C4 jl_c4 (some ["exec"]) 5 7 rfl rfl

theorem finalize_usage_get (r4 : Obj) (t : Nat) (v : Obj) (k : String) (hk : k ≠ "usage")
    (h : finalize_usage r4 t = .ok v) : Obj.get? v k = Obj.get? r4 k := by
  unfold finalize_usage at h
  split at h
  · injection h with h
    subst h
    rfl
  · injection h with h
    subst h
    exact Obj.get?_set_ne _ _ _ _ hk

/-- Any successful `sanitize_response` run leaves every key other than
`object`, `system_fingerprint`, `choices` and `usage` — in particular
`created` — exactly as `fix_created` produced it. -/
theorem sanitize_response_ok_created (jl : String → Option JVal)
    (allowed : Option (List String)) (en : Bool) (now nowMs : Int) (r v : Obj)
    (h : sanitize_response jl allowed en now nowMs (some (.obj r)) = RespOut.ok v) :
    Obj.get? v "created" = Obj.get? (fix_created now r) "created" := by
  simp only [sanitize_response] at h
  have hso : ∀ o : Obj, Obj.get? (Obj.setdefault (Obj.setdefault o "object"
      (.str "chat.completion")) "system_fingerprint" (.str "hailo-ollama")) "created" =
      Obj.get? o "created" := by
    intro o
    rw [Obj.get?_setdefault_ne _ _ _ _ (by decide), Obj.get?_setdefault_ne _ _ _ _ (by decide)]
  split at h
  · simp at h
  · rename_i r4 tot heq
    rw [finalize_usage_get _ _ _ _ (by decide) h]
    split at heq
    · simp only [Option.some.injEq, Prod.mk.injEq] at heq
      rw [← heq.1]
      exact hso (fix_created now r)
    · split at heq
      · simp at heq
      · simp only [Option.some.injEq, Prod.mk.injEq] at heq
        rw [← heq.1, Obj.get?_set_ne _ _ _ _ (by decide)]
        exact hso (fix_created now r)
    · split at heq
      · simp only [Option.some.injEq, Prod.mk.injEq] at heq
        rw [← heq.1]
        exact hso (fix_created now r)
      · simp at heq
    · split at heq
      · simp only [Option.some.injEq, Prod.mk.injEq] at heq
        rw [← heq.1]
        exact hso (fix_created now r)
      · simp at heq
    · simp at heq

/-- C5: a nanosecond-magnitude integer `created` (above `1e15`) is
replaced by its value floor-divided by `10^9`; a positive integer
`created` at or below the threshold is left unchanged; a zero or absent
`created` is replaced with the current time. -/
theorem claim_C5 (jl : String → Option JVal) (allowed : Option (List String))
    (en : Bool) (now nowMs : Int) (r v : Obj)
    (h : sanitize_response jl allowed en now nowMs (some (.obj r)) = RespOut.ok v) :
    (∀ n : Int, Obj.get? r "created" = some (.int n) → 1000000000000000 < n →
      Obj.get? v "created" = some (.int (n / 1000000000))) ∧
    (∀ n : Int, Obj.get? r "created" = some (.int n) → 0 < n → n ≤ 1000000000000000 →
      Obj.get? v "created" = some (.int n)) ∧
    ((Obj.get? r "created" = none ∨ Obj.get? r "created" = some (.int 0)) →
      Obj.get? v "created" = some (.int now)) := by
  have hcv := sanitize_response_ok_created jl allowed en now nowMs r v h
  refine ⟨fun n hc hn => ?_, fun n hc hpos hle => ?_, fun hc => ?_⟩
  · rw [hcv]
    unfold fix_created
    rw [hc]
    simp only [Option.getD_some, if_pos hn]
    exact Obj.get?_set_self _ _ _
  · rw [hcv]
    unfold fix_created
    rw [hc]
    simp only [Option.getD_some, if_neg (not_lt.mpr hle), if_neg (by omega : ¬n = 0)]
    exact hc
  · rw [hcv]
    unfold fix_created
    rcases hc with hc | hc <;> rw [hc] <;>
      simp only [Option.getD_none, Option.getD_some] <;>
      · simp only [if_neg (by decide : ¬(1000000000000000 : Int) < 0), if_pos rfl]
        exact Obj.get?_set_self _ _ _

/-- Witness for C5: the three timestamp cases at concrete responses. -/
theorem claim_C5_witness :
    Obj.get? [("created", .int 1731000000), ("object", .str "chat.completion"),
              ("system_fingerprint", .str "hailo-ollama"),
              ("usage", .obj [("prompt_tokens", .int 100), ("completion_tokens", .int 1),
                              ("total_tokens", .int 101)])] "created" =
      some (.int (1731000000000000000 / 1000000000)) ∧
    Obj.get? [("created", .int 1731000000), ("object", .str "chat.completion"),
              ("system_fingerprint", .str "hailo-ollama"),
              ("usage", .obj [("prompt_tokens", .int 100), ("completion_tokens", .int 1),
                              ("total_tokens", .int 101)])] "created" =
      some (.int 1731000000) ∧
    Obj.get? [("created", .int 42), ("object", .str "chat.completion"),
              ("system_fingerprint", .str "hailo-ollama"),
              ("usage", .obj [("prompt_tokens", .int 100), ("completion_tokens", .int 1),
                              ("total_tokens", .int 101)])] "created" =
      some (.int 42) :=
  ⟨(claim_C5 (fun _ => none) none false 42 0 [("created", .int 1731000000000000000)] _ rfl).1
      1731000000000000000 rfl (by decide),
   (claim_C5 (fun _ => none) none false 42 0 [("created", .int 1731000000)] _ rfl).2.1
      1731000000 rfl (by decide) (by decide),
   (claim_C5 (fun _ => none) none false 42 0 [("created", .int 0)] _ rfl).2.2
      (Or.inr rfl)⟩

/-- The `finish_reason` of an SSE data frame's single choice. -/
def frame_finish_reason : SseFrame → Option JVal
  | .dataJson (.obj o) =>
      match Obj.get? o "choices" with
      | some (.arr [.obj c]) => Obj.get? c "finish_reason"
      | _ => none
  | _ => none

/-- C6: a normalized response with one choice, content `"hello"` and no
tool call transcodes to exactly four frames — role delta, one content
delta carrying the whole content, the finishing frame (whose
`finish_reason` is `"stop"`), and the done sentinel; a non-parseable raw
body is wrapped verbatim as one data frame plus the sentinel. -/
theorem claim_C6 (now : Int) (data : String) (r c m : Obj)
    (hch : Obj.get? r "choices" = some (.arr [.obj c]))
    (hmsg : Obj.get? c "message" = some (.obj m))
    (hcontent : Obj.get? m "content" = some (.str "hello"))
    (htc : Obj.get? m "tool_calls" = none) :
    (∃ l, to_sse now data (some (.obj r)) = some l ∧
      l.length = 4 ∧
      l = [.dataJson (sse_chunk ((Obj.get? r "id").getD (.str "chatcmpl-0"))
             ((Obj.get? r "created").getD (.int now))
             ((Obj.get? r "model").getD (.str "unknown"))
             ((Obj.get? r "system_fingerprint").getD (.str "hailo-ollama"))
             sse_role_choice none),
           .dataJson (sse_chunk ((Obj.get? r "id").getD (.str "chatcmpl-0"))
             ((Obj.get? r "created").getD (.int now))
             ((Obj.get? r "model").getD (.str "unknown"))
             ((Obj.get? r "system_fingerprint").getD (.str "hailo-ollama"))
             (sse_content_choice (.str "hello")) none),
           .dataJson (sse_chunk ((Obj.get? r "id").getD (.str "chatcmpl-0"))
             ((Obj.get? r "created").getD (.int now))
             ((Obj.get? r "model").getD (.str "unknown"))
             ((Obj.get? r "system_fingerprint").getD (.str "hailo-ollama"))
             sse_finish_choice (some ((Obj.get? r "usage").getD (.obj [])))),
           .done] ∧
      (l.get? 2).map frame_finish_reason = some (some (.str "stop"))) ∧
    (∀ s, to_sse now s none = some [.dataRaw s, .done]) := by
  constructor
  · have hext : sse_extract r = some (.str "hello", .null) := by
      unfold sse_extract
      rw [hch]
      rw [if_pos (show ((some (JVal.arr [JVal.obj c])).getD JVal.null).pyTruthy = true from rfl)]
      show (match (Obj.get? c "message").getD (.obj []) with
            | JVal.obj m =>
              some ((Obj.get? m "content").getD (.str ""), (Obj.get? m "tool_calls").getD .null)
            | _ => none) = _
      rw [hmsg]
      show some ((Obj.get? m "content").getD (.str ""), (Obj.get? m "tool_calls").getD .null) = _
      rw [hcontent, htc]
      rfl
    have he : to_sse now data (some (.obj r)) =
        some (sse_frames ((Obj.get? r "id").getD (.str "chatcmpl-0"))
          ((Obj.get? r "model").getD (.str "unknown"))
          ((Obj.get? r "created").getD (.int now))
          ((Obj.get? r "system_fingerprint").getD (.str "hailo-ollama"))
          ((Obj.get? r "usage").getD (.obj [])) (.str "hello") .null) := by
      show (match sse_extract r with
            | none => none
            | some (content, tool_calls) =>
              some (sse_frames ((Obj.get? r "id").getD (.str "chatcmpl-0"))
                ((Obj.get? r "model").getD (.str "unknown"))
                ((Obj.get? r "created").getD (.int now))
                ((Obj.get? r "system_fingerprint").getD (.str "hailo-ollama"))
                ((Obj.get? r "usage").getD (.obj [])) content tool_calls)) = _
      rw [hext]
    exact ⟨_, he, rfl, rfl, rfl⟩
  · intro s
    rfl

/-- Concrete message/choice/response for the C6 witness. -/
def c6m : Obj := [("content", .str "hello")]

def c6c : Obj := [("message", .obj c6m)]

def c6r : Obj := [("id", .str "chatcmpl-7"), ("choices", .arr [.obj c6c])]

/-- Witness for C6 at a concrete normalized response. -/
theorem claim_C6_witness :
    (∃ l, to_sse 5 "raw" (some (.obj c6r)) = some l ∧
      l.length = 4 ∧
      l = [.dataJson (sse_chunk ((Obj.get? c6r "id").getD (.str "chatcmpl-0"))
             ((Obj.get? c6r "created").getD (.int 5))
             ((Obj.get? c6r "model").getD (.str "unknown"))
             ((Obj.get? c6r "system_fingerprint").getD (.str "hailo-ollama"))
             sse_role_choice none),
           .dataJson (sse_chunk ((Obj.get? c6r "id").getD (.str "chatcmpl-0"))
             ((Obj.get? c6r "created").getD (.int 5))
             ((Obj.get? c6r "model").getD (.str "unknown"))
             ((Obj.get? c6r "system_fingerprint").getD (.str "hailo-ollama"))
             (sse_content_choice (.str "hello")) none),
           .dataJson (sse_chunk ((Obj.get? c6r "id").getD (.str "chatcmpl-0"))
             ((Obj.get? c6r "created").getD (.int 5))
             ((Obj.get? c6r "model").getD (.str "unknown"))
             ((Obj.get? c6r "system_fingerprint").getD (.str "hailo-ollama"))
             sse_finish_choice (some ((Obj.get? c6r "usage").getD (.obj [])))),
           .done] ∧
      (l.get? 2).map frame_finish_reason = some (some (.str "stop"))) ∧
    (∀ s, to_sse 5 s none = some [.dataRaw s, .done]) :=
  claim_C6 5 "raw" c6r c6c c6m rfl rfl rfl rfl

theorem collectUserMsgs_eq_filter (msgs users : List JVal)
    (h : collectUserMsgs msgs = some users) : users = msgs.filter jIsUserMsg := by
  induction msgs generalizing users with
  | nil =>
    simp only [collectUserMsgs, Option.some.injEq] at h
    simp [← h]
  | cons m t ih =>
    cases m with
    | obj o =>
      simp only [collectUserMsgs] at h
      cases ht : collectUserMsgs t with
      | none => rw [ht] at h; simp at h
      | some us =>
        rw [ht] at h
        simp only [Option.map_some', Option.some.injEq] at h
        rw [List.filter_cons, ← h, ← ih us ht]
    | null => simp [collectUserMsgs] at h
    | bool b => simp [collectUserMsgs] at h
    | int n => simp [collectUserMsgs] at h
    | str s => simp [collectUserMsgs] at h
    | arr l => simp [collectUserMsgs] at h

theorem user_not_system (x : JVal) (h : jIsUserMsg x = true) : jIsSystemMsg x = false := by
  cases x with
  | obj o =>
    simp only [jIsUserMsg] at h
    cases hr : Obj.get? o "role" with
    | none => rw [hr] at h; simp at h
    | some v =>
      rw [hr] at h
      cases v with
      | str s =>
        simp only [decide_eq_true_eq] at h
        simp [jIsSystemMsg, hr, h]
      | null => simp at h
      | bool b => simp at h
      | int n => simp at h
      | arr l => simp at h
      | obj o2 => simp at h
  | null => exact absurd h (by simp [jIsUserMsg])
  | bool b => exact absurd h (by simp [jIsUserMsg])
  | int n => exact absurd h (by simp [jIsUserMsg])
  | str s => exact absurd h (by simp [jIsUserMsg])
  | arr l => exact absurd h (by simp [jIsUserMsg])

/-- C2: when a message list holds more than the (positive) configured
history limit `N` of user messages, the simplified list is exactly the
synthesized system message followed by the last `N` user messages in
their original order; every trailing element is user-role and exactly
one system-role message (the synthesized one) remains. -/
theorem claim_C2 (cfg : ProxyConfig) (msgs : List JVal) (tp : String) (out : List JVal)
    (hN : 0 < cfg.maxHistory)
    (h : simplify_messages cfg msgs tp = some out)
    (hcount : cfg.maxHistory < ((msgs.filter jIsUserMsg).length : Int)) :
    out = synth_system_message cfg tp ::
      (msgs.filter jIsUserMsg).drop
        ((msgs.filter jIsUserMsg).length - cfg.maxHistory.toNat) ∧
    out.length = cfg.maxHistory.toNat + 1 ∧
    (∀ x ∈ out.drop 1, jIsUserMsg x = true) ∧
    (out.filter jIsSystemMsg).length = 1 := by
  have hne : msgs.isEmpty = false := by
    cases msgs with
    | nil => simp at hcount; omega
    | cons a t => rfl
  rw [simplify_messages, hne] at h
  simp only [Bool.false_eq_true, if_false] at h
  split at h
  case h_2 => simp at h
  case h_1 users slen hcu hsl =>
    have husers := collectUserMsgs_eq_filter msgs users hcu
    subst husers
    rw [if_pos hcount] at h
    unfold pySliceLast at h
    rw [if_neg (by omega)] at h
    simp only [Option.some.injEq] at h
    have hlen : cfg.maxHistory.toNat < (msgs.filter jIsUserMsg).length := by
      have := Int.toNat_of_nonneg (le_of_lt hN)
      omega
    refine ⟨h.symm, ?_, ?_, ?_⟩
    · rw [← h]
      simp only [List.length_cons, List.length_drop]
      omega
    · intro x hx
      rw [← h] at hx
      simp only [List.drop_one, List.tail_cons] at hx
      exact List.of_mem_filter (List.mem_of_mem_drop hx)
    · rw [← h]
      rw [List.filter_cons_of_pos (by rfl)]
      have hrest : (((msgs.filter jIsUserMsg).drop
          ((msgs.filter jIsUserMsg).length - cfg.maxHistory.toNat)).filter jIsSystemMsg) = [] := by
        rw [List.filter_eq_nil_iff]
        intro a ha
        have hu : jIsUserMsg a = true :=
          List.of_mem_filter (List.mem_of_mem_drop ha)
        simp [user_not_system a hu]
      rw [hrest]
      rfl

/-- Concrete configuration and message list for the C2 witness. -/
def c2_cfg : ProxyConfig := ⟨128, 1, ""⟩

def c2_msgs : List JVal :=
  [.obj [("role", .str "system"), ("content", .str "big prompt")],
   .obj [("role", .str "user"), ("content", .str "q1")],
   .obj [("role", .str "assistant"), ("content", .str "a1")],
   .obj [("role", .str "user"), ("content", .str "q2")]]

/-- Witness for C2: two user turns against a history limit of 1. -/
theorem claim_C2_witness :
    ([synth_system_message c2_cfg "", .obj [("role", .str "user"), ("content", .str "q2")]] :
        List JVal) =
      synth_system_message c2_cfg "" ::
        (c2_msgs.filter jIsUserMsg).drop
          ((c2_msgs.filter jIsUserMsg).length - c2_cfg.maxHistory.toNat) ∧
    ([synth_system_message c2_cfg "", .obj [("role", .str "user"), ("content", .str "q2")]] :
        List JVal).length = c2_cfg.maxHistory.toNat + 1 ∧
    (∀ x ∈ ([synth_system_message c2_cfg "",
             .obj [("role", .str "user"), ("content", .str "q2")]] : List JVal).drop 1,
      jIsUserMsg x = true) ∧
    (([synth_system_message c2_cfg "", .obj [("role", .str "user"), ("content", .str "q2")]] :
        List JVal).filter jIsSystemMsg).length = 1 :=
  claim_C2 c2_cfg c2_msgs ""
    [synth_system_message c2_cfg "", .obj [("role", .str "user"), ("content", .str "q2")]]
    (by decide) rfl (by decide)

/-- The field value a request dict contributes after the `None`-dropping
filter: the raw value unless it was `null` or absent. -/
def nonNullGet (d : Obj) (k : String) : Option JVal :=
  match Obj.get? d k with
  | some .null => none
  | some v => some v
  | none => none

/-- Numeric comparison for the values `resolve_max_tokens` can produce
(Python compares `bool` as 0/1). -/
def jIntLeB (v : JVal) (m : Int) : Bool :=
  match v with
  | .int n => n ≤ m
  | .bool b => (if b then (1 : Int) else 0) ≤ m
  | _ => false

theorem pyPosInt_le (M : Int) (x : Option JVal) (n : Int) (v : JVal)
    (h : pyPosInt x = some (n, v)) (hle : n ≤ M) : jIntLeB v M = true := by
  cases x with
  | none => simp [pyPosInt] at h
  | some w =>
    cases w with
    | int m =>
      by_cases hm : m > 0
      · simp only [pyPosInt, if_pos hm, Option.some.injEq, Prod.mk.injEq] at h
        rw [← h.2, jIntLeB]
        simp only [decide_eq_true_eq]
        omega
      · simp [pyPosInt, hm] at h
    | bool b =>
      cases b with
      | true =>
        simp only [pyPosInt, Option.some.injEq, Prod.mk.injEq] at h
        rw [← h.2, jIntLeB]
        simp only [if_true, decide_eq_true_eq]
        omega
      | false => simp [pyPosInt] at h
    | null => simp [pyPosInt] at h
    | str s => simp [pyPosInt] at h
    | arr l => simp [pyPosInt] at h
    | obj o => simp [pyPosInt] at h

theorem resolve_max_tokens_le (M : Int) (mt mct : Option JVal) :
    jIntLeB (resolve_max_tokens M mt mct) M = true := by
  have hM : jIntLeB (.int M) M = true := by simp [jIntLeB]
  unfold resolve_max_tokens
  split
  · rename_i n v heq
    by_cases hle : n ≤ M
    · rw [if_pos hle]; exact pyPosInt_le M mt n v heq hle
    · rw [if_neg hle]; exact hM
  · split
    · rename_i n v heq
      by_cases hle : n ≤ M
      · rw [if_pos hle]; exact pyPosInt_le M mct n v heq hle
      · rw [if_neg hle]; exact hM
    · exact hM

theorem chat_scalar_pre_get_stream (cfg : ProxyConfig) (s : Obj) :
    Obj.get? (chat_scalar_pre cfg s) "stream" = some (.bool false) := by
  unfold chat_scalar_pre
  rw [Obj.get?_erase_ne _ _ _ (by decide), Obj.get?_set_ne _ _ _ _ (by decide)]
  exact Obj.get?_set_self _ _ _

theorem chat_scalar_pre_get_mct (cfg : ProxyConfig) (s : Obj) :
    Obj.get? (chat_scalar_pre cfg s) "max_completion_tokens" = none := by
  unfold chat_scalar_pre
  exact Obj.get?_erase_self _ _

theorem chat_scalar_pre_get_mt (cfg : ProxyConfig) (s : Obj) :
    Obj.get? (chat_scalar_pre cfg s) "max_tokens" =
      some (resolve_max_tokens cfg.maxTokens (Obj.get? s "max_tokens")
        (Obj.get? s "max_completion_tokens")) := by
  unfold chat_scalar_pre
  rw [Obj.get?_erase_ne _ _ _ (by decide), Obj.get?_set_self,
    Obj.get?_set_ne _ _ _ _ (by decide), Obj.get?_set_ne _ _ _ _ (by decide)]

theorem chat_scalar_pre_mem (cfg : ProxyConfig) (s : Obj) (kv : String × JVal)
    (h : kv ∈ chat_scalar_pre cfg s) :
    kv.1 = "stream" ∨ kv.1 = "max_tokens" ∨ kv ∈ s := by
  unfold chat_scalar_pre at h
  have h3 := Obj.mem_erase _ _ _ h
  rcases Obj.mem_set _ _ _ _ h3 with h4 | h4
  · exact Or.inr (Or.inl (by rw [h4]))
  · rcases Obj.mem_set _ _ _ _ h4 with h5 | h5
    · exact Or.inl (by rw [h5])
    · exact Or.inr (Or.inr h5)

theorem chat_scalar_steps_eq (cfg : ProxyConfig) (s : Obj) :
    chat_scalar_steps cfg s =
      (match Obj.get? (chat_scalar_pre cfg s) "n" with
       | some (.int n) =>
         if n > 1 then Obj.set (chat_scalar_pre cfg s) "n" (.int 1) else chat_scalar_pre cfg s
       | _ => chat_scalar_pre cfg s) := rfl

theorem chat_scalar_get_of_pre (cfg : ProxyConfig) (s : Obj) (k : String) (hk : k ≠ "n") :
    Obj.get? (chat_scalar_steps cfg s) k = Obj.get? (chat_scalar_pre cfg s) k := by
  rw [chat_scalar_steps_eq]
  cases hn : Obj.get? (chat_scalar_pre cfg s) "n" with
  | none => rfl
  | some v =>
    cases v with
    | int n =>
      by_cases h1 : n > 1
      · show Obj.get? (if n > 1 then Obj.set (chat_scalar_pre cfg s) "n" (.int 1)
            else chat_scalar_pre cfg s) k = Obj.get? (chat_scalar_pre cfg s) k
        rw [if_pos h1]
        exact Obj.get?_set_ne _ _ _ _ hk
      · show Obj.get? (if n > 1 then Obj.set (chat_scalar_pre cfg s) "n" (.int 1)
            else chat_scalar_pre cfg s) k = Obj.get? (chat_scalar_pre cfg s) k
        rw [if_neg h1]
    | null => rfl
    | bool b => rfl
    | str s2 => rfl
    | arr l => rfl
    | obj o2 => rfl

theorem chat_scalar_mem (cfg : ProxyConfig) (s : Obj) (kv : String × JVal)
    (h : kv ∈ chat_scalar_steps cfg s) :
    kv.1 = "stream" ∨ kv.1 = "max_tokens" ∨ kv.1 = "n" ∨ kv ∈ s := by
  have base : kv ∈ chat_scalar_pre cfg s →
      kv.1 = "stream" ∨ kv.1 = "max_tokens" ∨ kv.1 = "n" ∨ kv ∈ s := by
    intro h2
    rcases chat_scalar_pre_mem cfg s kv h2 with h3 | h3 | h3
    · exact Or.inl h3
    · exact Or.inr (Or.inl h3)
    · exact Or.inr (Or.inr (Or.inr h3))
  rw [chat_scalar_steps_eq] at h
  revert h
  cases hn : Obj.get? (chat_scalar_pre cfg s) "n" with
  | none => exact base
  | some v =>
    cases v with
    | int n =>
      by_cases h1 : n > 1
      · intro h
        have h2 : kv ∈ (if n > 1 then Obj.set (chat_scalar_pre cfg s) "n" (.int 1)
            else chat_scalar_pre cfg s) := h
        rw [if_pos h1] at h2
        rcases Obj.mem_set _ _ _ _ h2 with h4 | h4
        · exact Or.inr (Or.inr (Or.inl (by rw [h4])))
        · exact base h4
      · intro h
        have h2 : kv ∈ (if n > 1 then Obj.set (chat_scalar_pre cfg s) "n" (.int 1)
            else chat_scalar_pre cfg s) := h
        rw [if_neg h1] at h2
        exact base h2
    | null => exact base
    | bool b => exact base
    | str s2 => exact base
    | arr l => exact base
    | obj o2 => exact base

theorem chat_filtered_get_allowed (d : Obj) (k : String)
    (hnd : (d.map Prod.fst).Nodup) (hk : k ∈ ALLOWED_CHAT_FIELDS) :
    Obj.get? (chat_filtered d) k = nonNullGet d k := by
  unfold chat_filtered nonNullGet
  rw [Obj.get?_filter _ _ _ hnd]
  cases Obj.get? d k with
  | none => rfl
  | some v => cases v <;> simp [hk]

theorem chat_filtered_mem (d : Obj) (kv : String × JVal)
    (h : kv ∈ chat_filtered d) : kv.1 ∈ ALLOWED_CHAT_FIELDS := by
  have := List.of_mem_filter h
  simp only [Bool.and_eq_true, decide_eq_true_eq] at this
  exact this.1

theorem chat_messages_cleaned_get (s step3 : Obj) (k : String) (hk : k ≠ "messages")
    (h : chat_messages_cleaned s = some step3) : Obj.get? step3 k = Obj.get? s k := by
  unfold chat_messages_cleaned at h
  split at h
  · rename_i msgs heq
    cases hcm : clean_messages msgs with
    | none => rw [hcm] at h; simp at h
    | some cleaned =>
      rw [hcm] at h
      simp only [Option.map_some', Option.some.injEq] at h
      rw [← h]
      exact Obj.get?_set_ne _ _ _ _ hk
  · simp only [Option.some.injEq] at h
    rw [h]

theorem chat_messages_cleaned_mem (s step3 : Obj) (kv : String × JVal)
    (h : chat_messages_cleaned s = some step3) (hm : kv ∈ step3) :
    kv.1 = "messages" ∨ kv ∈ s := by
  unfold chat_messages_cleaned at h
  split at h
  · rename_i msgs heq
    cases hcm : clean_messages msgs with
    | none => rw [hcm] at h; simp at h
    | some cleaned =>
      rw [hcm] at h
      simp only [Option.map_some', Option.some.injEq] at h
      rw [← h] at hm
      rcases Obj.mem_set _ _ _ _ hm with h4 | h4
      · exact Or.inl (by rw [h4])
      · exact Or.inr h4
  · simp only [Option.some.injEq] at h
    subst h
    exact Or.inr hm

/-- C1: on any parsed request object, the sanitized body holds only
recognized chat fields, `stream` is forced to `false`,
`max_completion_tokens` is dropped, and `max_tokens` is exactly the
resolved clamp (explicit positive `max_tokens`, else explicit positive
`max_completion_tokens`, else the ceiling) and never exceeds the
configured ceiling. -/
theorem claim_C1 (cfg : ProxyConfig) (d : Obj) (tpe : Bool) (o : Obj)
    (hnd : (d.map Prod.fst).Nodup)
    (h : sanitize_chat_body cfg (some (.obj d)) tpe = .ok o) :
    (∀ kv ∈ o, kv.1 ∈ ALLOWED_CHAT_FIELDS) ∧
    Obj.get? o "stream" = some (.bool false) ∧
    Obj.get? o "max_completion_tokens" = none ∧
    ∃ r, Obj.get? o "max_tokens" = some r ∧
      r = resolve_max_tokens cfg.maxTokens (nonNullGet d "max_tokens")
            (nonNullGet d "max_completion_tokens") ∧
      jIntLeB r cfg.maxTokens = true := by
  simp only [sanitize_chat_body] at h
  split at h
  · simp at h
  · rename_i step3 heq3
    have hstream : Obj.get? (chat_scalar_steps cfg step3) "stream" = some (.bool false) := by
      rw [chat_scalar_get_of_pre _ _ _ (by decide)]
      exact chat_scalar_pre_get_stream cfg step3
    have hmct : Obj.get? (chat_scalar_steps cfg step3) "max_completion_tokens" = none := by
      rw [chat_scalar_get_of_pre _ _ _ (by decide)]
      exact chat_scalar_pre_get_mct cfg step3
    have hmt : Obj.get? (chat_scalar_steps cfg step3) "max_tokens" =
        some (resolve_max_tokens cfg.maxTokens (nonNullGet d "max_tokens")
          (nonNullGet d "max_completion_tokens")) := by
      rw [chat_scalar_get_of_pre _ _ _ (by decide), chat_scalar_pre_get_mt,
        chat_messages_cleaned_get _ _ _ (by decide) heq3,
        chat_messages_cleaned_get _ _ _ (by decide) heq3,
        Obj.get?_erase_ne _ _ _ (by decide), Obj.get?_erase_ne _ _ _ (by decide),
        chat_filtered_get_allowed d _ hnd (by decide),
        chat_filtered_get_allowed d _ hnd (by decide)]
    have hmem : ∀ kv ∈ chat_scalar_steps cfg step3, kv.1 ∈ ALLOWED_CHAT_FIELDS := by
      intro kv hkv
      rcases chat_scalar_mem cfg step3 kv hkv with h1 | h1 | h1 | h1
      · rw [h1]; decide
      · rw [h1]; decide
      · rw [h1]; decide
      · rcases chat_messages_cleaned_mem _ _ _ heq3 h1 with h2 | h2
        · rw [h2]; decide
        · exact chat_filtered_mem d kv (Obj.mem_erase _ _ _ h2)
    split at h
    · injection h with h
      subst h
      exact ⟨hmem, hstream, hmct,
        ⟨_, hmt, rfl, resolve_max_tokens_le _ _ _⟩⟩
    · rename_i mv hmv
      split at h
      · simp at h
      · rename_i tp htp
        split at h
        · simp at h
        · rename_i mv2 hmv2
          injection h with h
          subst h
          refine ⟨?_, ?_, ?_, ?_⟩
          · intro kv hkv
            rcases Obj.mem_set _ _ _ _ hkv with h1 | h1
            · rw [h1]
              show "messages" ∈ ALLOWED_CHAT_FIELDS
              decide
            · exact hmem kv h1
          · rw [Obj.get?_set_ne _ _ _ _ (by decide)]
            exact hstream
          · rw [Obj.get?_set_ne _ _ _ _ (by decide)]
            exact hmct
          · refine ⟨_, ?_, rfl, resolve_max_tokens_le _ _ _⟩
            rw [Obj.get?_set_ne _ _ _ _ (by decide)]
            exact hmt

/-- Witness for C1 at a concrete request body. -/
theorem claim_C1_witness :
    (∀ kv ∈ ([("model", .str "m"), ("max_tokens", .int 128), ("stream", .bool false)] : Obj),
      kv.1 ∈ ALLOWED_CHAT_FIELDS) ∧
    Obj.get? [("model", .str "m"), ("max_tokens", .int 128), ("stream", .bool false)]
      "stream" = some (.bool false) ∧
    Obj.get? [("model", .str "m"), ("max_tokens", .int 128), ("stream", .bool false)]
      "max_completion_tokens" = none ∧
    ∃ r, Obj.get? [("model", .str "m"), ("max_tokens", .int 128), ("stream", .bool false)]
        "max_tokens" = some r ∧
      r = resolve_max_tokens (128 : Int)
            (nonNullGet [("model", .str "m"), ("max_tokens", .int 999), ("junk", .int 1)]
              "max_tokens")
            (nonNullGet [("model", .str "m"), ("max_tokens", .int 999), ("junk", .int 1)]
              "max_completion_tokens") ∧
      jIntLeB r 128 = true :=
  claim_C1 ⟨128, 1, ""⟩ [("model", .str "m"), ("max_tokens", .int 999), ("junk", .int 1)]
    false [("model", .str "m"), ("max_tokens", .int 128), ("stream", .bool false)]
    (by decide) rfl

theorem finish_payload_name (p : JVal) (al : Option (List String)) (tc : ToolCall)
    (h : finish_payload p al = some tc) : tc.name.pyTruthy = true := by
  unfold finish_payload at h
  split at h
  · rename_i po
    split at h
    · simp at h
    · rename_i hname
      split at h
      · rename_i a ha
        injection h with h
        subst h
        simpa using hname
      · simp at h
  · simp at h

theorem parse_tool_call_fallback_name (jl : String → Option JVal) (raw : String)
    (al : Option (List String)) (tc : ToolCall)
    (h : parse_tool_call_fallback jl raw al = some tc) : tc.name.pyTruthy = true := by
  simp only [parse_tool_call_fallback] at h
  split at h
  · split at h
    · simp at h
    · exact finish_payload_name _ _ _ h
  · split at h
    · simp at h
    · split at h
      · simp at h
      · exact finish_payload_name _ _ _ h

/-- The payload text of the C8 counterexample: a tool call whose
`arguments` value is a (falsy, empty) list. -/
def falsy_args_text : String := "\x7b\"tool\": \"x\", \"arguments\": []\x7d"

def falsy_args_val : JVal := .obj [("tool", .str "x"), ("arguments", .arr [])]

def jl_c8 : String → Option JVal := fun s =>
  if s = falsy_args_text then some falsy_args_val else none

/-- Counterexample to C8 as stated: for the payload
`{"tool": "x", "arguments": []}` the arguments value is a list, yet
`parse_tool_call` returns a call (with an empty mapping) instead of no
call — Python's `or {}` collapses every falsy arguments value. -/
theorem claim_C8_counterexample :
    parse_tool_call jl_c8 (.str falsy_args_text) (some ["x"]) =
      some ⟨.str "x", []⟩ := rfl

/-- C8 (amended): a returned call always has a truthy (non-empty)
recovered name; a truthy non-dict arguments value yields no call, but a
falsy one (empty list, empty string, zero, false, null — like an absent
one) collapses to the empty mapping and the call is returned; and the
declared tool-name set never changes the result (an unknown name is
logged, never dropped). -/
theorem claim_C8 :
    (∀ (jl : String → Option JVal) (content : JVal) (allowed : Option (List String))
       (tc : ToolCall), parse_tool_call jl content allowed = some tc →
       tc.name.pyTruthy = true) ∧
    (∀ (jl : String → Option JVal) (s : String) (p : Obj) (allowed : Option (List String)),
       s ≠ "" → jl (strip_code_fence (pyStrip s)) = some (.obj p) →
       (tcArgsOf p).pyTruthy = true → (tcArgsOf p).isObj = false →
       parse_tool_call jl (.str s) allowed = none) ∧
    (∀ (jl : String → Option JVal) (s : String) (p : Obj) (allowed : Option (List String))
       (a : Obj), s ≠ "" → jl (strip_code_fence (pyStrip s)) = some (.obj p) →
       (tcNameOf p).pyTruthy = true → tcArgsOf p = .obj a →
       parse_tool_call jl (.str s) allowed = some ⟨tcNameOf p, a⟩) ∧
    (∀ (jl : String → Option JVal) (content : JVal)
       (al1 al2 : Option (List String)),
       parse_tool_call jl content al1 = parse_tool_call jl content al2) := by
  have hguard : ∀ s : String, s ≠ "" → (!(JVal.str s).pyTruthy) = false := by
    intro s hs
    simp [JVal.pyTruthy, hs]
  refine ⟨?_, ?_, ?_, ?_⟩
  · intro jl content allowed tc h
    simp only [parse_tool_call] at h
    split at h
    · simp at h
    · split at h
      · rename_i s
        split at h
        · exact finish_payload_name _ _ _ h
        · exact parse_tool_call_fallback_name _ _ _ _ h
      · simp at h
  · intro jl s p allowed hs hjl hargs hobj
    simp only [parse_tool_call, hguard s hs, Bool.false_eq_true, if_false]
    rw [hjl]
    show finish_payload (.obj p) allowed = none
    unfold finish_payload
    by_cases hname : (tcNameOf p).pyTruthy
    · simp only [hname, Bool.not_true, Bool.false_eq_true, if_false]
      cases ha : tcArgsOf p with
      | obj a => rw [ha] at hobj; simp [JVal.isObj] at hobj
      | null => rfl
      | bool b => rfl
      | int n => rfl
      | str s2 => rfl
      | arr l => rfl
    · simp [hname]
  · intro jl s p allowed a hs hjl hname hargs
    simp only [parse_tool_call, hguard s hs, Bool.false_eq_true, if_false]
    rw [hjl]
    show finish_payload (.obj p) allowed = some ⟨tcNameOf p, a⟩
    unfold finish_payload
    simp only [hname, Bool.not_true, Bool.false_eq_true, if_false]
    rw [hargs]
  · intro jl content al1 al2
    rfl

/-- Oracle and text with a truthy non-dict arguments value. -/
def truthy_args_text : String := "\x7b\"tool\": \"x\", \"arguments\": [1]\x7d"

def truthy_args_val : JVal := .obj [("tool", .str "x"), ("arguments", .arr [.int 1])]

def jl_c8b : String → Option JVal := fun s =>
  if s = truthy_args_text then some truthy_args_val else none

/-- Witness for C8 (amended) at concrete oracles. -/
theorem claim_C8_witness :
    ((⟨.str "x", []⟩ : ToolCall).name).pyTruthy = true ∧
    parse_tool_call jl_c8b (.str truthy_args_text) none = none ∧
    parse_tool_call jl_c8 (.str falsy_args_text) none =
      some ⟨tcNameOf [("tool", .str "x"), ("arguments", .arr [])], []⟩ ∧
    parse_tool_call jl_c8 (.str falsy_args_text) none =
      parse_tool_call jl_c8 (.str falsy_args_text) (some ["zzz"]) :=
  ⟨claim_C8.1 jl_c8 (.str falsy_args_text) none ⟨.str "x", []⟩ rfl,
   claim_C8.2.1 jl_c8b truthy_args_text [("tool", .str "x"), ("arguments", .arr [.int 1])]
     none (by decide) rfl rfl rfl,
   claim_C8.2.2.1 jl_c8 falsy_args_text [("tool", .str "x"), ("arguments", .arr [])]
     none [] (by decide) rfl rfl rfl,
   claim_C8.2.2.2 jl_c8 (.str falsy_args_text) none (some ["zzz"])⟩

/-- Whether a response outcome carries a `tool_calls` entry in its first
choice's message. -/
def respOut_has_tool_calls (ro : RespOut) : Bool :=
  match ro with
  | .ok o => (msg_tool_calls o).isSome
  | _ => false

/-- The fully normalized response produced by running `sanitize_response`
(at time 99/999, oracle `jl_c4`) on an upstream response whose content
held the exec tool call: its message carries a `tool_calls` array. -/
def c7_normalized : Obj :=
  [("created", .int 1731000000),
   ("choices", .arr [.obj [("message", .obj
      [("role", .str "assistant"), ("content", .str ""), ("refusal", .null),
       ("tool_calls", .arr [.obj [("id", .str "call_999"), ("type", .str "function"),
          ("function", .obj [("name", .str "exec"),
            ("arguments", .str "\x7b\"command\": \"python3 script.py\"\x7d")])]])]),
     ("finish_reason", .str "stop"), ("logprobs", .null)]]),
   ("object", .str "chat.completion"),
   ("system_fingerprint", .str "hailo-ollama"),
   ("usage", .obj [("prompt_tokens", .int 100), ("completion_tokens", .int 13),
                   ("total_tokens", .int 113)])]

/-- Counterexample to C7 as stated: `c7_normalized` is itself the output
of `sanitize_response` (first conjunct), i.e. a fully normalized response
with an attached `tool_calls`; yet re-normalizing it does not return it
unchanged — the message is rebuilt from the (cleared) content, which
parses to no tool call, so the `tool_calls` entry is dropped. -/
theorem claim_C7_counterexample :
    sanitize_response jl_c4 none true 99 999
      (some (.obj [("created", .int 1731000000000000000),
        ("choices", .arr [.obj [("message", .obj [("content", .str exec_call_text)])]])])) =
      RespOut.ok c7_normalized ∧
    sanitize_response jl_c4 none true 99 999 (some (.obj c7_normalized)) ≠
      RespOut.ok c7_normalized := by
  refine ⟨rfl, fun h => ?_⟩
  exact absurd (congrArg respOut_has_tool_calls h) (by decide)

/-- A choice in normal form (as `sanitize_response` leaves it), relative
to the request's parse oracle and tool-call setting: `finish_reason` and
`logprobs` present, the message rebuilt to exactly
`{role, content, refusal: null}`, sized content, and no tool call
recoverable from the content (none attached, none re-parsed). -/
def ChoiceNormalized (jl : String → Option JVal) (allowed : Option (List String))
    (en : Bool) (c : JVal) : Prop :=
  ∃ co : Obj, c = .obj co ∧
    (Obj.get? co "finish_reason").isSome = true ∧
    (Obj.get? co "logprobs").isSome = true ∧
    ∃ role content, Obj.get? co "message" =
        some (.obj [("role", role), ("content", content), ("refusal", .null)]) ∧
      content.pyLen.isSome = true ∧
      (if en then remap_tool_call (parse_tool_call jl content allowed) else none) = none

/-- A response object in normal form: `created` a positive integer at or
below the nanosecond threshold, `object`/`system_fingerprint`/`usage`
present, and every choice normalized (with no tool call attached). -/
def ResponseNormalized (jl : String → Option JVal) (allowed : Option (List String))
    (en : Bool) (v : Obj) : Prop :=
  (∃ n : Int, Obj.get? v "created" = some (.int n) ∧ 0 < n ∧ n ≤ 1000000000000000) ∧
  (Obj.get? v "object").isSome = true ∧
  (Obj.get? v "system_fingerprint").isSome = true ∧
  (Obj.get? v "usage").isSome = true ∧
  (match Obj.get? v "choices" with
   | none => True
   | some (.arr cs) => ∀ c ∈ cs, ChoiceNormalized jl allowed en c
   | some _ => False)

theorem sanitize_choice_normalized (jl : String → Option JVal)
    (allowed : Option (List String)) (en : Bool) (nowMs : Int) (c : JVal)
    (h : ChoiceNormalized jl allowed en c) :
    ∃ len, sanitize_choice jl allowed en nowMs c = some (c, len) := by
  obtain ⟨co, rfl, hfr, hlp, role, content, hmsg, hlen, htc⟩ := h
  obtain ⟨w1, hw1⟩ := Option.isSome_iff_exists.mp hfr
  obtain ⟨w2, hw2⟩ := Option.isSome_iff_exists.mp hlp
  obtain ⟨len, hl⟩ := Option.isSome_iff_exists.mp hlen
  refine ⟨len, ?_⟩
  have e : sanitize_choice jl allowed en nowMs (.obj co) =
      (match (Obj.get? (Obj.setdefault (Obj.setdefault co "finish_reason" (.str "stop"))
          "logprobs" .null) "message").getD (.obj []) with
       | .obj m =>
         finish_choice nowMs
           (Obj.setdefault (Obj.setdefault co "finish_reason" (.str "stop")) "logprobs" .null)
           m ((Obj.get? m "content").getD (.str ""))
           (if en then remap_tool_call (parse_tool_call jl
             ((Obj.get? m "content").getD (.str "")) allowed) else none)
       | _ => none) := rfl
  rw [e, Obj.setdefault_of_present _ _ _ _ hw1, Obj.setdefault_of_present _ _ _ _ hw2,
    hmsg]
  simp only [Option.getD_some]
  show finish_choice nowMs co [("role", role), ("content", content), ("refusal", .null)]
      ((Obj.get? [("role", role), ("content", content), ("refusal", .null)]
        "content").getD (.str ""))
      (if en then remap_tool_call (parse_tool_call jl
        ((Obj.get? [("role", role), ("content", content), ("refusal", .null)]
          "content").getD (.str "")) allowed) else none) = some (.obj co, len)
  have hcget : (Obj.get? [("role", role), ("content", content), ("refusal", .null)]
      "content").getD (.str "") = content := rfl
  rw [hcget, htc]
  unfold finish_choice
  rw [hl]
  show (some (JVal.obj (Obj.set co "message"
    (JVal.obj [("role", ((Obj.get? [("role", role), ("content", content), ("refusal", JVal.null)]
      "role").getD (JVal.str "assistant"))), ("content", content), ("refusal", JVal.null)])), len) :
    Option (JVal × Nat)) = some (JVal.obj co, len)
  have hrget : (Obj.get? [("role", role), ("content", content), ("refusal", .null)]
      "role").getD (.str "assistant") = role := rfl
  rw [hrget, Obj.set_of_get _ _ _ hmsg]

theorem sanitize_choices_normalized (jl : String → Option JVal)
    (allowed : Option (List String)) (en : Bool) (nowMs : Int) (cs : List JVal)
    (h : ∀ c ∈ cs, ChoiceNormalized jl allowed en c) :
    ∃ tot, sanitize_choices jl allowed en nowMs cs = some (cs, tot) := by
  induction cs with
  | nil => exact ⟨0, rfl⟩
  | cons c t ih =>
    obtain ⟨len, hc⟩ :=
      sanitize_choice_normalized jl allowed en nowMs c (h c (List.mem_cons_self c t))
    obtain ⟨tot, ht⟩ := ih (fun x hx => h x (List.mem_cons_of_mem c hx))
    refine ⟨len + tot, ?_⟩
    simp only [sanitize_choices]
    rw [hc, ht]
    rfl

/-- C7 (amended): `sanitize_response` is the identity on an already
fully-normalized response provided no `tool_calls` array is attached and
the content re-parses to no tool call — re-normalizing rebuilds each
message from its content and would drop an attached `tool_calls` —
and the normalized `created` is below the nanosecond threshold. -/
theorem claim_C7 (jl : String → Option JVal) (allowed : Option (List String))
    (en : Bool) (now nowMs : Int) (v : Obj)
    (h : ResponseNormalized jl allowed en v) :
    sanitize_response jl allowed en now nowMs (some (.obj v)) = RespOut.ok v := by
  obtain ⟨⟨n, hc, hn0, hn1⟩, hobj, hfp, husage, hch⟩ := h
  have hfc : fix_created now v = v := by
    unfold fix_created
    rw [hc]
    simp only [Option.getD_some]
    rw [if_neg (by omega), if_neg (by omega)]
  obtain ⟨wo, hwo⟩ := Option.isSome_iff_exists.mp hobj
  obtain ⟨wf, hwf⟩ := Option.isSome_iff_exists.mp hfp
  obtain ⟨wu, hwu⟩ := Option.isSome_iff_exists.mp husage
  have hfin : ∀ tot : Nat, finalize_usage v tot = RespOut.ok v := by
    intro tot
    unfold finalize_usage
    rw [hwu]
  simp only [sanitize_response, hfc,
    Obj.setdefault_of_present _ _ _ _ hwo, Obj.setdefault_of_present _ _ _ _ hwf]
  revert hch
  cases hcv : Obj.get? v "choices" with
  | none => intro _; exact hfin 0
  | some ch =>
    cases ch with
    | arr cs =>
      intro hch
      obtain ⟨tot, hcs⟩ := sanitize_choices_normalized jl allowed en nowMs cs hch
      show (match (match sanitize_choices jl allowed en nowMs cs with
                   | none => none
                   | some (cs', tot) =>
                     some (Obj.set v "choices" (.arr cs'), tot) : Option (Obj × Nat)) with
            | none => RespOut.error
            | some (r4, total_chars) => finalize_usage r4 total_chars) = RespOut.ok v
      rw [hcs]
      show finalize_usage (Obj.set v "choices" (.arr cs)) tot = RespOut.ok v
      rw [Obj.set_of_get _ _ _ hcv]
      exact hfin tot
    | null => intro hf; exact (hf : False).elim
    | bool b => intro hf; exact (hf : False).elim
    | int m => intro hf; exact (hf : False).elim
    | str s => intro hf; exact (hf : False).elim
    | obj o2 => intro hf; exact (hf : False).elim

/-- A concrete normalized response without tool calls for the C7
witness (the normalization of `blocked_resp`). -/
def c7w : Obj :=
  [("created", .int 1731000000),
   ("choices", .arr [.obj [("message", .obj [("role", .str "assistant"),
      ("content", .str blocked_call_text), ("refusal", .null)]),
     ("finish_reason", .str "stop"), ("logprobs", .null)]]),
   ("object", .str "chat.completion"),
   ("system_fingerprint", .str "hailo-ollama"),
   ("usage", .obj [("prompt_tokens", .int 100), ("completion_tokens", .int 4),
                   ("total_tokens", .int 104)])]

/-- Witness for C7 (amended): re-normalizing the tool-call-free
normalized response `c7w` returns it unchanged. -/
theorem claim_C7_witness :
    sanitize_response jl_c4 none true 7 8 (some (.obj c7w)) = RespOut.ok c7w :=
  claim_C7 jl_c4 none true 7 8 c7w
    ⟨⟨1731000000, rfl, by decide, by decide⟩, rfl, rfl, rfl,
     by
      intro c hcmem
      rw [List.mem_singleton] at hcmem
      subst hcmem
      exact ⟨_, rfl, rfl, rfl, .str "assistant", .str blocked_call_text, rfl, rfl, rfl⟩⟩
